import Mathlib

/-!
MeshGenerator: spatial grid, nearest-site search, relaxation and rasterisation.

A shallow embedding of `src/MeshGenerator/src/meshgenerator.cpp`.

* `double` values are exact rationals (`ℚ`); the conversion `double → int` is truncation
  toward zero (`truncToInt`). The rounding of the `double` operations is left out, except in
  `findGridIdDouble`, which rounds the difference and the quotient of `findGridId` with
  `roundDouble`.
* `int` values are `Int`; the cell counts `nx`, `ny` and the site count `n` are `Nat`.
* `std::vector<std::vector<int>>` tables are `List (List _)`; reading or writing outside a
  table is undefined in C++ and is `none` here.
* The site arrays `x`, `js` and the accumulators `neighbours` are total functions on the site
  index; only indices `0..n-1` are ever stored in a membership list by `mapParticlesToGrid`.
* The `omp parallel for` loops are run in index order.
-/

namespace mg

/-! ## Numbers and the class members that describe the domain and the grid -/

/-- Conversion of a `double` to `int` as C++ does it: the fractional part is discarded. -/
def truncToInt (q : ℚ) : Int :=
  if 0 ≤ q then ⌊q⌋ else ⌈q⌉

/-- The members of `mg::MeshGenerator` that describe the domain rectangle, its periodicity
and the cell grid (`X_0 .. Y_1`, `periodic_x`, `periodic_y`, `nx`, `ny`, `gridSpacing_x`,
`gridSpacing_y`). -/
structure MeshGenerator where
  X_0 : ℚ
  X_1 : ℚ
  Y_0 : ℚ
  Y_1 : ℚ
  periodic_x : Bool
  periodic_y : Bool
  nx : Nat
  ny : Nat
  gridSpacing_x : ℚ
  gridSpacing_y : ℚ

/-- Member `DX`, set by the constructor to `X_1 - X_0`. -/
def MeshGenerator.DX (g : MeshGenerator) : ℚ := g.X_1 - g.X_0

/-- Member `DY`, set by the constructor to `Y_1 - Y_0`. -/
def MeshGenerator.DY (g : MeshGenerator) : ℚ := g.Y_1 - g.Y_0

/-! ## `findGridId` -/

/-- The "boundary checks" of `findGridId` on one axis:
`if(id > n) id = n - 1; else if(id < 0) id = 0;`. -/
def boundaryCheck (n : Nat) (id : Int) : Int :=
  if id > (n : Int) then (n : Int) - 1
  else if id < 0 then 0
  else id

/-- Local `id_x` of `findGridId` after the boundary check. -/
def gridIdX (g : MeshGenerator) (r : ℚ × ℚ) : Int :=
  boundaryCheck g.nx (truncToInt ((r.1 - g.X_0) / g.gridSpacing_x))

/-- Local `id_y` of `findGridId` after the boundary check. -/
def gridIdY (g : MeshGenerator) (r : ℚ × ℚ) : Int :=
  boundaryCheck g.ny (truncToInt ((r.2 - g.Y_0) / g.gridSpacing_y))

/-- `int mg::MeshGenerator::findGridId(const arma::vec2 &r)`. -/
def findGridId (g : MeshGenerator) (r : ℚ × ℚ) : Int :=
  gridIdY g r + (g.ny : Int) * gridIdX g r

/-! ## `createDomainGrid` -/

/-- The offsets `pluss_minus = {-1, 0, 1}`. -/
def pluss_minus : List Int := [-1, 0, 1]

/-- First guard of the neighbour loops:
`if(id < 0) { if(periodic) id = n-1; else continue; }`; `none` is the `continue`. -/
def wrapLow (periodic : Bool) (n : Nat) (id : Int) : Option Int :=
  if id < 0 then (if periodic then some ((n : Int) - 1) else none) else some id

/-- Second guard of the neighbour loops:
`if(id >= n) { if(periodic) id = 0; else continue; }`; `none` is the `continue`. -/
def wrapHigh (periodic : Bool) (n : Nat) (id : Int) : Option Int :=
  if id ≥ (n : Int) then (if periodic then some 0 else none) else some id

/-- Both guards in sequence, applied to the shifted index `id`. -/
def wrapIndex (periodic : Bool) (n : Nat) (id : Int) : Option Int :=
  (wrapLow periodic n id).bind (wrapHigh periodic n)

/-- `table[c].push_back(v)` on a vector of vectors (no effect if `c` is not an index). -/
def pushBack {α : Type} : List (List α) → Nat → α → List (List α)
  | [], _, _ => []
  | l :: t, 0, v => (l ++ [v]) :: t
  | l :: t, c + 1, v => l :: pushBack t c v

/-- Body of the loop `for(int id_y : pluss_minus)` for cell `(i, j)` and the already wrapped
column `id_x`. -/
def neighbourStepY (g : MeshGenerator) (i j : Nat) (id_x : Int)
    (table : List (List Int)) (d : Int) : List (List Int) :=
  match wrapIndex g.periodic_y g.ny (d + j) with
  | none => table
  | some id_y =>
    let id_ij : Int := (j : Int) + (g.ny : Int) * (i : Int)
    let id_neighbour : Int := id_y + (g.ny : Int) * id_x
    if id_neighbour = id_ij then table
    else pushBack table (j + g.ny * i) id_neighbour

/-- Body of the loop `for(int id_x : pluss_minus)` for cell `(i, j)`. -/
def neighbourStepX (g : MeshGenerator) (i j : Nat)
    (table : List (List Int)) (d : Int) : List (List Int) :=
  match wrapIndex g.periodic_x g.nx (d + i) with
  | none => table
  | some id_x => pluss_minus.foldl (neighbourStepY g i j id_x) table

/-- `void mg::MeshGenerator::createDomainGrid()`: the value of `gridNeighbours` it builds. -/
def createDomainGrid (g : MeshGenerator) : List (List Int) :=
  (List.range g.nx).foldl
    (fun table i =>
      (List.range g.ny).foldl
        (fun table j => pluss_minus.foldl (neighbourStepX g i j) table)
        table)
    (List.replicate (g.nx * g.ny) [])

/-! ## `mapParticlesToGrid` -/

/-- Entry `table[c]` of a vector of vectors indexed by an `int`; `none` outside the table. -/
def cellAt {α : Type} (table : List (List α)) (c : Int) : Option (List α) :=
  if 0 ≤ c then table[c.toNat]? else none

/-- `particlesInGridPoint[c].push_back(i)` with an `int` index; `none` if `c` is not an index
of the table. -/
def pushSite (table : List (List Nat)) (c : Int) (i : Nat) : Option (List (List Nat)) :=
  if 0 ≤ c ∧ c.toNat < table.length then some (pushBack table c.toNat i) else none

/-- `void mg::MeshGenerator::mapParticlesToGrid()`: every list is cleared, then the sites
`0 .. n-1` are pushed into the list of their cell. -/
def mapParticlesToGrid (g : MeshGenerator) (n : Nat) (x : Nat → ℚ × ℚ)
    (particlesInGridPoint : List (List Nat)) : Option (List (List Nat)) :=
  (List.range n).foldlM
    (fun table i => pushSite table (findGridId g (x i)) i)
    (particlesInGridPoint.map (fun _ => []))

/-! ## The nearest-site search of `createMesh` -/

/-- The comparison `dr_rk < maxLen`. `none` stands for the initial value
`numeric_limits<double>::max()` of `maxLen`, which no squared distance reaches. -/
def belowMaxLen (dr_rk : ℚ) : Option ℚ → Bool
  | none => true
  | some maxLen => decide (dr_rk < maxLen)

/-- The locals `maxLen`, `indexMax` and `y_tmp` of the sampling loop of `createMesh`. -/
structure SearchState where
  maxLen : Option ℚ
  indexMax : Int
  y_tmp : ℚ × ℚ

/-- The minimum-image adjustment of `createMesh` on one axis, applied to the offset `x_k`
and to the copy `y_r_copy` of the sample coordinate; returns the pair `(x_k, y_r_copy)`:
`if(periodic) { if(x_k > 0.5*D) { x_k -= D; y_r_copy -= D; }
else if(x_k < -0.5*D) { x_k += D; y_r_copy += D; } }`. -/
def adjustAxis (periodic : Bool) (D x_k y_r_copy : ℚ) : ℚ × ℚ :=
  if periodic then
    if x_k > (1 / 2) * D then (x_k - D, y_r_copy - D)
    else if x_k < -(1 / 2) * D then (x_k + D, y_r_copy + D)
    else (x_k, y_r_copy)
  else (x_k, y_r_copy)

/-- The value `dr_rk` computed in `createMesh` for the sample `y_r` and a site at `x_k`. -/
def sqDist (g : MeshGenerator) (y_r x_k : ℚ × ℚ) : ℚ :=
  (adjustAxis g.periodic_x g.DX (y_r.1 - x_k.1) y_r.1).1
      * (adjustAxis g.periodic_x g.DX (y_r.1 - x_k.1) y_r.1).1
    + (adjustAxis g.periodic_y g.DY (y_r.2 - x_k.2) y_r.2).1
      * (adjustAxis g.periodic_y g.DY (y_r.2 - x_k.2) y_r.2).1

/-- The value of `y_r_copy` after both adjustments, for the sample `y_r` and a site at
`x_k`. -/
def shiftedSample (g : MeshGenerator) (y_r x_k : ℚ × ℚ) : ℚ × ℚ :=
  ((adjustAxis g.periodic_x g.DX (y_r.1 - x_k.1) y_r.1).2,
   (adjustAxis g.periodic_y g.DY (y_r.2 - x_k.2) y_r.2).2)

/-- Body of the loops `for(int k : particlesInGridPoint[..])` of `createMesh`. -/
def visitSite (g : MeshGenerator) (x : Nat → ℚ × ℚ) (y_r : ℚ × ℚ) (st : SearchState)
    (k : Nat) : SearchState :=
  let dr_rk := sqDist g y_r (x k)
  if belowMaxLen dr_rk st.maxLen then
    { maxLen := some dr_rk, indexMax := (k : Int), y_tmp := shiftedSample g y_r (x k) }
  else st

/-- The nearest-site search of `createMesh` for the sample `y_r`: the own cell is scanned,
then the cells of `gridNeighbours[gId]` in order. -/
def nearestSiteSearch (g : MeshGenerator) (x : Nat → ℚ × ℚ)
    (particlesInGridPoint : List (List Nat)) (gridNeighbours : List (List Int))
    (y_r : ℚ × ℚ) : Option SearchState := do
  let gId := findGridId g y_r
  let own ← cellAt particlesInGridPoint gId
  let st := own.foldl (visitSite g x y_r) { maxLen := none, indexMax := -1, y_tmp := y_r }
  let nbs ← cellAt gridNeighbours gId
  nbs.foldlM
    (fun st gridNeighbour => do
      let cell ← cellAt particlesInGridPoint gridNeighbour
      pure (cell.foldl (visitSite g x y_r) st))
    st

/-- The block "Storing the result" of the sampling loop:
`if(indexMax >= 0) { du = neighbours[indexMax]; du[0] += y_tmp[0]; du[1] += y_tmp[1];
du[2] += 1; }`. -/
def storeResult (neighbours : Nat → ℚ × ℚ × ℚ) (st : SearchState) : Nat → ℚ × ℚ × ℚ :=
  if st.indexMax ≥ 0 then
    Function.update neighbours st.indexMax.toNat
      ((neighbours st.indexMax.toNat).1 + st.y_tmp.1,
       (neighbours st.indexMax.toNat).2.1 + st.y_tmp.2,
       (neighbours st.indexMax.toNat).2.2 + 1)
  else neighbours

/-- One pass of the sampling loop of `createMesh` for the accepted sample `y_r`: the
search, then the accumulation into `neighbours`. -/
def sampleStep (g : MeshGenerator) (x : Nat → ℚ × ℚ)
    (particlesInGridPoint : List (List Nat)) (gridNeighbours : List (List Int))
    (neighbours : Nat → ℚ × ℚ × ℚ) (y_r : ℚ × ℚ) : Option (Nat → ℚ × ℚ × ℚ) :=
  (nearestSiteSearch g x particlesInGridPoint gridNeighbours y_r).map (storeResult neighbours)

/-! ## The nearest-site search of `save_image_and_xyz` -/

/-- The minimum-image adjustment of `save_image_and_xyz` (and of
`calculateRadialDistribution`) on one axis, applied to the offset `x_k`. -/
def minImage (periodic : Bool) (D x_k : ℚ) : ℚ :=
  if periodic then
    if x_k > (1 / 2) * D then x_k - D
    else if x_k < -(1 / 2) * D then x_k + D
    else x_k
  else x_k

/-- The value `dr_rk` computed in `save_image_and_xyz` for the pixel `r_img` and a site at
`x_k`. -/
def sqDistRaster (g : MeshGenerator) (r_img x_k : ℚ × ℚ) : ℚ :=
  minImage g.periodic_x g.DX (r_img.1 - x_k.1) * minImage g.periodic_x g.DX (r_img.1 - x_k.1)
    + minImage g.periodic_y g.DY (r_img.2 - x_k.2)
      * minImage g.periodic_y g.DY (r_img.2 - x_k.2)

/-- The locals `maxLen` and `indexMax` of the pixel loop of `save_image_and_xyz`. -/
structure RasterSearch where
  maxLen : Option ℚ
  indexMax : Int

/-- Body of the loops `for(int k : particlesInGridPoint[..])` of `save_image_and_xyz`. -/
def visitSiteRaster (g : MeshGenerator) (x : Nat → ℚ × ℚ) (r_img : ℚ × ℚ)
    (st : RasterSearch) (k : Nat) : RasterSearch :=
  let dr_rk := sqDistRaster g r_img (x k)
  if belowMaxLen dr_rk st.maxLen then { maxLen := some dr_rk, indexMax := (k : Int) }
  else st

/-- The nearest-site search of `save_image_and_xyz` for the pixel position `r_img`. -/
def nearestSiteRaster (g : MeshGenerator) (x : Nat → ℚ × ℚ)
    (particlesInGridPoint : List (List Nat)) (gridNeighbours : List (List Int))
    (r_img : ℚ × ℚ) : Option RasterSearch := do
  let gId := findGridId g r_img
  let own ← cellAt particlesInGridPoint gId
  let st := own.foldl (visitSiteRaster g x r_img) { maxLen := none, indexMax := -1 }
  let nbs ← cellAt gridNeighbours gId
  nbs.foldlM
    (fun st gridNeighbour => do
      let cell ← cellAt particlesInGridPoint gridNeighbour
      pure (cell.foldl (visitSiteRaster g x r_img) st))
    st

/-! ## The site-update pass and the relaxation loop of `createMesh` -/

/-- The relaxation weights `alpha_1`, `alpha_2`, `beta_1`, `beta_2`. -/
structure Weights where
  alpha_1 : ℚ
  alpha_2 : ℚ
  beta_1 : ℚ
  beta_2 : ℚ

/-- The per-site data of `createMesh`: the positions `x` (column `i` of the matrix), the
exposure counts `js` and the accumulators `neighbours[i] = (sum x, sum y, hits)`. -/
structure Sites where
  x : Nat → ℚ × ℚ
  js : Nat → ℚ
  neighbours : Nat → ℚ × ℚ × ℚ

/-- Body of the site-update loop of `createMesh` for site `i`. -/
def updateSite (w : Weights) (s : Sites) (i : Nat) : Sites :=
  let dun := s.neighbours i
  if dun.2.2 ≤ 0 then s
  else
    let j := s.js i
    let x_i := s.x i
    let u_r : ℚ × ℚ := (dun.1 / dun.2.2, dun.2.1 / dun.2.2)
    { x := Function.update s.x i
        (((w.alpha_1 * j + w.beta_1) * x_i.1 + (w.alpha_2 * j + w.beta_2) * u_r.1) / (j + 1),
         ((w.alpha_1 * j + w.beta_1) * x_i.2 + (w.alpha_2 * j + w.beta_2) * u_r.2) / (j + 1))
      js := Function.update s.js i (j + 1)
      neighbours := Function.update s.neighbours i (0, 0, 0) }

/-- The site-update pass of one relaxation iteration: `for(int i=0; i<n; i++)`. -/
def updatePass (w : Weights) (n : Nat) (s : Sites) : Sites :=
  (List.range n).foldl (updateSite w) s

/-- The two tests of `checkBoundaries` on one coordinate:
`if(c < lo) c += D; if(c >= hi) c -= D;`. -/
def wrapCoordinate (lo hi D c : ℚ) : ℚ :=
  let c1 := if c < lo then c + D else c
  if c1 ≥ hi then c1 - D else c1

/-- `void mg::MeshGenerator::checkBoundaries()`: the new positions of the sites `0..n-1`. -/
def checkBoundaries (g : MeshGenerator) (n : Nat) (x : Nat → ℚ × ℚ) : Nat → ℚ × ℚ :=
  fun k =>
    if k < n then
      (if g.periodic_x then wrapCoordinate g.X_0 g.X_1 g.DX (x k).1 else (x k).1,
       if g.periodic_y then wrapCoordinate g.Y_0 g.Y_1 g.DY (x k).2 else (x k).2)
    else x k

/-- The random input of one relaxation iteration: the redistributed sites (index drawn and
the accepted new position; empty when `nRedistributedPoints = 0` or when the iteration is
not a redistribution iteration) and the `q` accepted sample points. -/
structure IterationInput where
  redistributed : List (Nat × (ℚ × ℚ))
  samples : List (ℚ × ℚ)

/-- The state carried from one relaxation iteration to the next. -/
structure MeshState where
  sites : Sites
  particlesInGridPoint : List (List Nat)

/-- One iteration of the loop `for (int k=0; k<threshold; k++)` of `createMesh`, with
`param.testingSave` off: `checkBoundaries`, `mapParticlesToGrid`, the redistribution, the
sampling pass and the site-update pass. -/
def relaxIteration (g : MeshGenerator) (w : Weights) (n : Nat)
    (gridNeighbours : List (List Int)) (s : MeshState) (input : IterationInput) :
    Option MeshState := do
  let x1 := checkBoundaries g n s.sites.x
  let p ← mapParticlesToGrid g n x1 s.particlesInGridPoint
  let x2 := input.redistributed.foldl
    (fun x (r : Nat × (ℚ × ℚ)) => Function.update x r.1 r.2) x1
  let neighbours ← input.samples.foldlM
    (fun neighbours y_r => sampleStep g x2 p gridNeighbours neighbours y_r)
    s.sites.neighbours
  pure { sites := updatePass w n { x := x2, js := s.sites.js, neighbours := neighbours }
         particlesInGridPoint := p }

/-- The loop `for (int k=0; k<threshold; k++)` of `createMesh`; `inputs` holds the random
input of each of the `threshold` iterations. -/
def relaxationLoop (g : MeshGenerator) (w : Weights) (n : Nat)
    (gridNeighbours : List (List Int)) (s : MeshState) (inputs : List IterationInput) :
    Option MeshState :=
  inputs.foldlM (relaxIteration g w n gridNeighbours) s

/-! ## The rasterisation loop of `save_image_and_xyz` -/

/-- The density field: the matrix `img_data` with its width `w` and height `h`. -/
structure DensityField where
  img_data : Int → Int → ℚ
  w : Nat
  h : Nat

/-- Member `dx = (X_1 - X_0)/w`. -/
def pixelSizeX (g : MeshGenerator) (f : DensityField) : ℚ := (g.X_1 - g.X_0) / f.w

/-- Member `dy = (Y_1 - Y_0)/h`. -/
def pixelSizeY (g : MeshGenerator) (f : DensityField) : ℚ := (g.Y_1 - g.Y_0) / f.h

/-- The mask test `img_data(r(1)/dy, r(0)/dx) > 0`. -/
def occupied (g : MeshGenerator) (f : DensityField) (r : ℚ × ℚ) : Bool :=
  decide (f.img_data (truncToInt (r.2 / pixelSizeY g f)) (truncToInt (r.1 / pixelSizeX g f)) > 0)

/-- A grid of one cell on the unit square, not periodic. -/
def unitGrid : MeshGenerator :=
  { X_0 := 0, X_1 := 1, Y_0 := 0, Y_1 := 1, periodic_x := false, periodic_y := false,
    nx := 1, ny := 1, gridSpacing_x := 1, gridSpacing_y := 1 }

/-- A grid of 2 x 2 cells on the unit square, periodic in `x` only. -/
def grid22 : MeshGenerator :=
  { X_0 := 0, X_1 := 1, Y_0 := 0, Y_1 := 1, periodic_x := true, periodic_y := false,
    nx := 2, ny := 2, gridSpacing_x := 1 / 2, gridSpacing_y := 1 / 2 }

/-- The two tables fit together: `gridNeighbours` has one list per cell and names only
cells of `particlesInGridPoint`. -/
def WellFormedTables (particlesInGridPoint : List (List Nat))
    (gridNeighbours : List (List Int)) : Prop :=
  gridNeighbours.length = particlesInGridPoint.length
    ∧ ∀ l ∈ gridNeighbours, ∀ c ∈ l, 0 ≤ c ∧ c.toNat < particlesInGridPoint.length

/-- The sites a search looks at: those of the own cell `own`, then those of the cells named
in `nbs`, in scan order. -/
def candidateSites (particlesInGridPoint : List (List Nat)) (own : List Nat)
    (nbs : List Int) : List Nat :=
  own ++ nbs.flatMap (fun c => (cellAt particlesInGridPoint c).getD [])

/-- Two sites on the unit square, at `(1/4, 1/4)` and at `(3/4, 3/4)`. -/
def twoSites : Nat → ℚ × ℚ :=
  fun i => if i = 0 then (1 / 4, 1 / 4) else (3 / 4, 3 / 4)

/-- The new position `((alpha1*j + beta1)*x_old + (alpha2*j + beta2)*u)/(j + 1)` with
`u = (sx/c, sy/c)`, for a site at `x_old` with exposure count `j` and accumulator
`(sx, sy, c)`. -/
def blendedPosition (w : Weights) (x_old : ℚ × ℚ) (j : ℚ) (acc : ℚ × ℚ × ℚ) : ℚ × ℚ :=
  (((w.alpha_1 * j + w.beta_1) * x_old.1 + (w.alpha_2 * j + w.beta_2) * (acc.1 / acc.2.2))
      / (j + 1),
   ((w.alpha_1 * j + w.beta_1) * x_old.2 + (w.alpha_2 * j + w.beta_2) * (acc.2.1 / acc.2.2))
      / (j + 1))

/-- One site at `(1/2, 1/2)` with exposure count 1 that was hit once, by the sample
`(1/4, 3/4)`. -/
def oneSiteHit : Sites :=
  { x := fun _ => (1 / 2, 1 / 2), js := fun _ => 1, neighbours := fun _ => (1 / 4, 3 / 4, 1) }

/-- The weights `alpha1 = 1, beta1 = 0, alpha2 = 0, beta2 = 0`. -/
def retainWeights : Weights :=
  { alpha_1 := 1, alpha_2 := 0, beta_1 := 0, beta_2 := 0 }

/-- A grid of one cell on the square `[0, 4] x [0, 4]`, not periodic. -/
def squareGrid : MeshGenerator :=
  { X_0 := 0, X_1 := 4, Y_0 := 0, Y_1 := 4, periodic_x := false, periodic_y := false,
    nx := 1, ny := 1, gridSpacing_x := 4, gridSpacing_y := 4 }

/-- One site at `(2, 2)` with exposure count 1 and an empty accumulator, on a grid of one
cell. -/
def oneSiteState : MeshState :=
  { sites := { x := fun _ => (2, 2), js := fun _ => 1, neighbours := fun _ => (0, 0, 0) }
    particlesInGridPoint := [[]] }

/-- An iteration without redistribution and with the single sample `(2, 2)`. -/
def oneSampleInput : IterationInput :=
  { redistributed := [], samples := [(2, 2)] }

/-- The point `r` lies in the half-open domain `[X_0, X_1) x [Y_0, Y_1)`. -/
def InDomain (g : MeshGenerator) (r : ℚ × ℚ) : Prop :=
  g.X_0 ≤ r.1 ∧ r.1 < g.X_1 ∧ g.Y_0 ≤ r.2 ∧ r.2 < g.Y_1

/-- The value `u` lies in the range `[X_0, n)` of
`distribution_rand_particle(X_0, n)`. -/
def InDrawRange (X_0 : ℚ) (n : Nat) (u : ℚ) : Prop :=
  X_0 ≤ u ∧ u < (n : ℚ)

/-- The index `int random_particle = distribution_rand_particle(generator)` for the drawn
real `u`. -/
def randomParticle (u : ℚ) : Int := truncToInt u

/-- Row index of the mask lookup `img_data(r(1)/dy, r(0)/dx)`. -/
def maskRow (g : MeshGenerator) (f : DensityField) (r : ℚ × ℚ) : Int :=
  truncToInt (r.2 / pixelSizeY g f)

/-- Column index of the mask lookup `img_data(r(1)/dy, r(0)/dx)`. -/
def maskColumn (g : MeshGenerator) (f : DensityField) (r : ℚ × ℚ) : Int :=
  truncToInt (r.1 / pixelSizeX g f)

/-- The domain `[1, 2] x [0, 1]` with one cell, periodic in `x`. -/
def shiftedGrid : MeshGenerator :=
  { X_0 := 1, X_1 := 2, Y_0 := 0, Y_1 := 1, periodic_x := true, periodic_y := false,
    nx := 1, ny := 1, gridSpacing_x := 1, gridSpacing_y := 1 }

/-- A density field of 10 x 10 pixels in which nothing is occupied. -/
def tenByTen : DensityField :=
  { img_data := fun _ _ => 0, w := 10, h := 10 }

/-- The locals `maxLen` and `indexMax` of a search of `createMesh`, seen as the locals of a
search of `save_image_and_xyz`. -/
def toRaster (st : SearchState) : RasterSearch :=
  { maxLen := st.maxLen, indexMax := st.indexMax }

/-! ## One iteration with explicit insertion and sample orders -/

/-- `mapParticlesToGrid` with the sites entering the critical section in the order `order`:
every list is cleared, then the sites of `order` are pushed one after the other. -/
def mapParticlesToGridIn (g : MeshGenerator) (x : Nat → ℚ × ℚ) (order : List Nat)
    (particlesInGridPoint : List (List Nat)) : Option (List (List Nat)) :=
  order.foldlM
    (fun table i => pushSite table (findGridId g (x i)) i)
    (particlesInGridPoint.map (fun _ => []))

/-- The grid rebuild, the sampling pass and the update pass of one iteration, with the
sites inserted in the order `order` and the samples accumulated in the order of the list
`samples`. -/
def iterationIn (g : MeshGenerator) (w : Weights) (n : Nat) (gridNeighbours : List (List Int))
    (s : Sites) (particlesInGridPoint : List (List Nat)) (order : List Nat)
    (samples : List (ℚ × ℚ)) : Option Sites := do
  let p ← mapParticlesToGridIn g s.x order particlesInGridPoint
  let neighbours ← samples.foldlM
    (fun neighbours y_r => sampleStep g s.x p gridNeighbours neighbours y_r) s.neighbours
  pure (updatePass w n { x := s.x, js := s.js, neighbours := neighbours })

/-- Two sites at `(1, 2)` and `(3, 2)`, both at distance 1 from `(2, 2)`, with exposure
count 1 and empty accumulators. -/
def twoSitesTie : Sites :=
  { x := fun i => if i = 0 then (1, 2) else (3, 2), js := fun _ => 1,
    neighbours := fun _ => (0, 0, 0) }

/-- The weights `alpha_1 = 1`, `beta_2 = 1`, `alpha_2 = beta_1 = 0`. -/
def pullWeights : Weights :=
  { alpha_1 := 1, alpha_2 := 0, beta_1 := 0, beta_2 := 1 }

/-! ## The analysis grid (`setDomainSize`) -/

/-- The conversion `int k = sqrt(q) * c` for `q, c ≥ 0`: the integer part of the square
root of `q * c * c`. -/
def truncSqrtTimes (q c : ℚ) : Int :=
  (Nat.sqrt ⌊q * c * c⌋.toNat : Int)

/-- The quotient `a / k` of a positive double by an `int`; `none` stands for the infinite
value that the division by `k = 0` gives. -/
def divInt (a : ℚ) (k : Int) : Option ℚ :=
  if k = 0 then none else some (a / k)

/-- The value `floor(a / s)` stored in an `int`, for a positive or infinite `s`; the
quotient by the infinite `s` is 0. -/
def floorQuot (a : ℚ) : Option ℚ → Int
  | none => 0
  | some s => ⌊a / s⌋

/-- The members written by `setDomainSize`; `none` is an infinite cell size. -/
structure GridSize where
  nx : Int
  ny : Int
  gridSpacing_x : Option ℚ
  gridSpacing_y : Option ℚ
deriving DecidableEq

/-- `void mg::MeshGenerator::setDomainSize(double spacing)` for `n` sites on a domain of
extents `DX`, `DY`. The cell sizes are computed before `nx` and `ny` are clamped. -/
def setDomainSize (n : Nat) (DX DY spacing : ℚ) : GridSize :=
  let rho : ℚ := n / (DX * DY)
  let nx0 := truncSqrtTimes rho DX
  let gridSpacing := divInt (spacing * DX) nx0
  let nx := floorQuot DX gridSpacing
  let ny := floorQuot DY gridSpacing
  { nx := if nx = 0 then 1 else nx
    ny := if ny = 0 then 1 else ny
    gridSpacing_x := divInt DX nx
    gridSpacing_y := divInt DY ny }

/-! ## The radial distribution (`calculateRadialDistribution`) -/

/-- The number of bins `nBins` of the histogram. -/
def nBins : Nat := 300

/-- The list `histogram` after `histogram[c]++`, for `c` inside the list. -/
def incrementAt : List Int → Nat → List Int
  | [], _ => []
  | a :: t, 0 => (a + 1) :: t
  | a :: t, c + 1 => a :: incrementAt t c

/-- The statement `histogram[id]++`; `none` when `id` is not an index of the histogram. -/
def incrementBin (histogram : List Int) (id : Int) : Option (List Int) :=
  if 0 ≤ id ∧ id.toNat < histogram.length then some (incrementAt histogram id.toNat)
  else none

/-- The test `dr_rk > maxLength` for `dr_rk = sqrt(d2)`. -/
def beyondCutoff (d2 maxLength : ℚ) : Bool :=
  decide (maxLength < 0 ∨ d2 > maxLength * maxLength)

/-- The conversion `int id = dr_rk / histSpacing` for `dr_rk = sqrt(d2)` and
`histSpacing > 0`: the integer part of the square root of `d2 / histSpacing²`. -/
def histogramBin (d2 histSpacing : ℚ) : Int :=
  (Nat.sqrt ⌊d2 / (histSpacing * histSpacing)⌋.toNat : Int)

/-- Body of the loops over the sites `k` of a cell in `calculateRadialDistribution`, after
the test `k == i` of the first loop: minimum-image distance, cutoff test, increment. -/
def histogramStep (g : MeshGenerator) (x : Nat → ℚ × ℚ) (maxLength histSpacing : ℚ)
    (r_i : ℚ × ℚ) (histogram : List Int) (k : Nat) : Option (List Int) :=
  let d2 := sqDistRaster g r_i (x k)
  if beyondCutoff d2 maxLength then some histogram
  else incrementBin histogram (histogramBin d2 histSpacing)

/-- Body of the loop `for(int i=0; i<n; i++)` of `calculateRadialDistribution`: the sites
of the own cell except `i` itself, then the sites of every cell named in the neighbour
list of the own cell. -/
def pairCountSite (g : MeshGenerator) (x : Nat → ℚ × ℚ)
    (particlesInGridPoint : List (List Nat)) (gridNeighbours : List (List Int))
    (maxLength histSpacing : ℚ) (histogram : List Int) (i : Nat) : Option (List Int) := do
  let r_i := x i
  let gId := findGridId g r_i
  let own ← cellAt particlesInGridPoint gId
  let h1 ← own.foldlM
    (fun h k => if k = i then some h else histogramStep g x maxLength histSpacing r_i h k)
    histogram
  let nbs ← cellAt gridNeighbours gId
  nbs.foldlM
    (fun h c => do
      let cell ← cellAt particlesInGridPoint c
      cell.foldlM (histogramStep g x maxLength histSpacing r_i) h)
    h1

/-- The histogram built by `calculateRadialDistribution` on the analysis grid `g`, with
`maxLength = 1.6 * gridSpacing_x` and `histSpacing = maxLength / nBins`. -/
def radialHistogram (g : MeshGenerator) (n : Nat) (x : Nat → ℚ × ℚ)
    (particlesInGridPoint : List (List Nat)) (gridNeighbours : List (List Int)) :
    Option (List Int) :=
  (List.range n).foldlM
    (pairCountSite g x particlesInGridPoint gridNeighbours (16 / 10 * g.gridSpacing_x)
      (16 / 10 * g.gridSpacing_x / nBins))
    (List.replicate nBins 0)

/-- The constant `M_PI` (the double nearest to π). -/
def M_PI : ℚ := 884279719003555 / 281474976710656

/-- The value `hist_i` of the peak loop for the bin `i`. -/
def normalizedDensity (histSpacing : ℚ) (histogram : List Int) (i : Nat) : ℚ :=
  let r1 := (i : ℚ) * histSpacing
  let r2 := r1 + histSpacing
  ((histogram.getD i 0 : Int) : ℚ) / (M_PI * (r2 ^ 2 - r1 ^ 2))

/-- The locals `maxIndex` and `maxValue` of the peak loop. -/
structure Peak where
  maxIndex : Int
  maxValue : ℚ

/-- Body of the peak loop of `calculateRadialDistribution`. -/
def peakStep (histSpacing : ℚ) (histogram : List Int) (st : Peak) (i : Nat) : Peak :=
  if normalizedDensity histSpacing histogram i > st.maxValue then
    { maxIndex := (i : Int), maxValue := normalizedDensity histSpacing histogram i }
  else st

/-- The peak loop `for(uint i=1; i<histogram.size(); i++)`, started with `maxIndex = -1`
and `maxValue = 0`. -/
def findPeak (histSpacing : ℚ) (histogram : List Int) : Peak :=
  ((List.range histogram.length).tail).foldl (peakStep histSpacing histogram)
    { maxIndex := -1, maxValue := 0 }

/-- The value `optimalGridSpacing = (maxIndex + 0.5) * histSpacing` returned by
`calculateRadialDistribution`. -/
def optimalGridSpacing (histSpacing : ℚ) (histogram : List Int) : ℚ :=
  (((findPeak histSpacing histogram).maxIndex : ℚ) + 1 / 2) * histSpacing

/-- `double mg::MeshGenerator::calculateRadialDistribution(int nr)`: the returned value,
for an analysis grid with finite cell sizes (`none` otherwise, or when an index is out of
range). The output file and the final reset of the grid are left out. -/
def calculateRadialDistribution (g : MeshGenerator) (n : Nat) (x : Nat → ℚ × ℚ) :
    Option ℚ := do
  let size := setDomainSize n g.DX g.DY (401 / 100)
  let sx ← size.gridSpacing_x
  let sy ← size.gridSpacing_y
  let g1 : MeshGenerator :=
    { g with nx := size.nx.toNat, ny := size.ny.toNat, gridSpacing_x := sx,
             gridSpacing_y := sy }
  let nb := createDomainGrid g1
  let x1 := checkBoundaries g1 n x
  let p ← mapParticlesToGrid g1 n x1 (List.replicate (g1.nx * g1.ny) [])
  let histogram ← radialHistogram g1 n x1 p nb
  pure (optimalGridSpacing (16 / 10 * sx / nBins) histogram)

/-- The unit square, periodic in both axes, before any grid is set. -/
def periodicUnit : MeshGenerator :=
  { X_0 := 0, X_1 := 1, Y_0 := 0, Y_1 := 1, periodic_x := true, periodic_y := true,
    nx := 1, ny := 1, gridSpacing_x := 1, gridSpacing_y := 1 }

/-- The analysis grid of 100 sites on the periodic unit square: 2 x 2 cells of size
1/2. -/
def latticeGrid : MeshGenerator :=
  { X_0 := 0, X_1 := 1, Y_0 := 0, Y_1 := 1, periodic_x := true, periodic_y := true,
    nx := 2, ny := 2, gridSpacing_x := 1 / 2, gridSpacing_y := 1 / 2 }

/-- The square lattice of `m x m` sites with spacing `1 / m` on the unit square. -/
def lattice (m : Nat) : Nat → ℚ × ℚ :=
  fun k => (((k / m : Nat) : ℚ) / m, ((k % m : Nat) : ℚ) / m)

/-- A grid of 2 x 1 cells of size 1 on `[0, 2] x [0, 1]`, periodic in `x`. -/
def ringGrid : MeshGenerator :=
  { X_0 := 0, X_1 := 2, Y_0 := 0, Y_1 := 1, periodic_x := true, periodic_y := false,
    nx := 2, ny := 1, gridSpacing_x := 1, gridSpacing_y := 1 }

/-- Two sites at `(1/2, 1/2)` and `(3/2, 1/2)`, one in each cell of `ringGrid`. -/
def ringSites : Nat → ℚ × ℚ :=
  fun i => if i = 0 then (1 / 2, 1 / 2) else (3 / 2, 1 / 2)

/-- Two sites at `(1/10, 1/10)` and `(9/10, 1/10)`: their distance is `4/5`. -/
def cutoffSites : Nat → ℚ × ℚ :=
  fun i => if i = 0 then (1 / 10, 1 / 10) else (9 / 10, 1 / 10)

/-- A grid of 2 x 2 cells of size 1/2 on the unit square, not periodic. -/
def openGrid : MeshGenerator :=
  { X_0 := 0, X_1 := 1, Y_0 := 0, Y_1 := 1, periodic_x := false, periodic_y := false,
    nx := 2, ny := 2, gridSpacing_x := 1 / 2, gridSpacing_y := 1 / 2 }

/-! ## `findGridId` in double precision -/

/-- The integer nearest to `q`, the even one of the two when `q` lies half-way between
them. -/
def roundHalfEven (q : ℚ) : Int :=
  if q - ⌊q⌋ < 1 / 2 then ⌊q⌋
  else if 1 / 2 < q - ⌊q⌋ then ⌊q⌋ + 1
  else if ⌊q⌋ % 2 = 0 then ⌊q⌋
  else ⌊q⌋ + 1

/-- The `double` nearest to `q`, as every `double` operation rounds its exact result
(IEEE 754 binary64: 53 significant bits, round to nearest, ties to even). For
`2^e <= |q| < 2^(e+1)` the doubles are the multiples of `2^(e-52)`; overflow and subnormal
numbers are left out. -/
def roundDouble (q : ℚ) : ℚ :=
  if q = 0 then 0
  else (roundHalfEven (q / 2 ^ (Int.log 2 |q| - 52)) : ℚ) * 2 ^ (Int.log 2 |q| - 52)

/-- Local `id_x` of `findGridId` after the boundary check, with the difference
`r(0) - X_0` and the quotient by `gridSpacing_x` rounded as the `double` operations round
them. -/
def gridIdXDouble (g : MeshGenerator) (r : ℚ × ℚ) : Int :=
  boundaryCheck g.nx
    (truncToInt (roundDouble (roundDouble (r.1 - g.X_0) / g.gridSpacing_x)))

/-- Local `id_y` of `findGridId` after the boundary check, in double precision. -/
def gridIdYDouble (g : MeshGenerator) (r : ℚ × ℚ) : Int :=
  boundaryCheck g.ny
    (truncToInt (roundDouble (roundDouble (r.2 - g.Y_0) / g.gridSpacing_y)))

/-- `int mg::MeshGenerator::findGridId(const arma::vec2 &r)` in double precision. -/
def findGridIdDouble (g : MeshGenerator) (r : ℚ × ℚ) : Int :=
  gridIdYDouble g r + (g.ny : Int) * gridIdXDouble g r

/-- A grid of 3 x 3 cells on the unit square, not periodic; the cell sizes are the double
`1.0/3 = 6004799503160661 / 2^54`. -/
def thirdsGrid : MeshGenerator :=
  { X_0 := 0, X_1 := 1, Y_0 := 0, Y_1 := 1, periodic_x := false, periodic_y := false,
    nx := 3, ny := 3, gridSpacing_x := 6004799503160661 / 18014398509481984,
    gridSpacing_y := 6004799503160661 / 18014398509481984 }

/-- The point `(1 - 2^-53, 0)`: its `x` is the largest double below `X_1 = 1`. -/
def belowUpperBoundary : ℚ × ℚ :=
  (9007199254740991 / 9007199254740992, 0)

/-! ## Auxiliary definitions used to describe the tables -/

/-- All of `vs` pushed, in order, to the back of `table[c]`. -/
def pushAll {α : Type} (table : List (List α)) (c : Nat) (vs : List α) : List (List α) :=
  vs.foldl (fun t v => pushBack t c v) table

/-- The values pushed by one pass of the `id_y` loop body for offset `d`. -/
def pushesY (g : MeshGenerator) (i j : Nat) (id_x : Int) (d : Int) : List Int :=
  match wrapIndex g.periodic_y g.ny (d + j) with
  | none => []
  | some id_y =>
    if id_y + (g.ny : Int) * id_x = (j : Int) + (g.ny : Int) * (i : Int) then []
    else [id_y + (g.ny : Int) * id_x]

/-- The values pushed by one pass of the `id_x` loop body for offset `d`. -/
def pushesX (g : MeshGenerator) (i j : Nat) (d : Int) : List Int :=
  match wrapIndex g.periodic_x g.nx (d + i) with
  | none => []
  | some id_x => pluss_minus.flatMap (pushesY g i j id_x)

/-- Everything `createDomainGrid` pushes while it visits cell `(i, j)`, in push order. -/
def cellNeighbours (g : MeshGenerator) (i j : Nat) : List Int :=
  pluss_minus.flatMap (pushesX g i j)

end mg

namespace mg

/-! ## Vectors of vectors -/

theorem length_pushBack {α : Type} (t : List (List α)) (c : Nat) (v : α) :
    (pushBack t c v).length = t.length := by
  induction t generalizing c with
  | nil => rfl
  | cons l t ih =>
    cases c with
    | zero => rfl
    | succ c => simp [pushBack, ih]

theorem getElem?_pushBack {α : Type} (t : List (List α)) (c : Nat) (v : α) (d : Nat) :
    (pushBack t c v)[d]? = if d = c then (t[d]?).map (fun l => l ++ [v]) else t[d]? := by
  induction t generalizing c d with
  | nil => simp [pushBack]
  | cons l t ih =>
    cases c with
    | zero =>
      cases d with
      | zero => simp [pushBack]
      | succ d => simp [pushBack]
    | succ c =>
      cases d with
      | zero => simp [pushBack]
      | succ d => simp [pushBack, ih]

theorem pushAll_append {α : Type} (t : List (List α)) (c : Nat) (vs ws : List α) :
    pushAll t c (vs ++ ws) = pushAll (pushAll t c vs) c ws := by
  simp [pushAll, List.foldl_append]

theorem length_pushAll {α : Type} (t : List (List α)) (c : Nat) (vs : List α) :
    (pushAll t c vs).length = t.length := by
  induction vs generalizing t with
  | nil => rfl
  | cons v vs ih => simp [pushAll] at ih ⊢; rw [ih, length_pushBack]

theorem getElem?_pushAll {α : Type} (t : List (List α)) (c : Nat) (vs : List α) (d : Nat) :
    (pushAll t c vs)[d]? = if d = c then (t[d]?).map (fun l => l ++ vs) else t[d]? := by
  induction vs generalizing t with
  | nil => simp [pushAll]
  | cons v vs ih =>
    have h : pushAll t c (v :: vs) = pushAll (pushBack t c v) c vs := rfl
    rw [h, ih, getElem?_pushBack]
    by_cases hd : d = c
    · simp only [hd, if_true]
      cases t[c]? <;> simp
    · simp [hd]

/-! ## The neighbour table of `createDomainGrid` -/

theorem foldl_neighbourStepY (g : MeshGenerator) (i j : Nat) (id_x : Int) (ds : List Int)
    (t : List (List Int)) :
    ds.foldl (neighbourStepY g i j id_x) t
      = pushAll t (j + g.ny * i) (ds.flatMap (pushesY g i j id_x)) := by
  induction ds generalizing t with
  | nil => rfl
  | cons d ds ih =>
    rw [List.foldl_cons, ih, List.flatMap_cons, pushAll_append]
    congr 1
    unfold neighbourStepY pushesY
    cases wrapIndex g.periodic_y g.ny (d + j) with
    | none => rfl
    | some id_y =>
      by_cases h : id_y + (g.ny : Int) * id_x = (j : Int) + (g.ny : Int) * (i : Int)
      · simp [h, pushAll]
      · simp [h, pushAll]

theorem foldl_neighbourStepX (g : MeshGenerator) (i j : Nat) (ds : List Int)
    (t : List (List Int)) :
    ds.foldl (neighbourStepX g i j) t
      = pushAll t (j + g.ny * i) (ds.flatMap (pushesX g i j)) := by
  induction ds generalizing t with
  | nil => rfl
  | cons d ds ih =>
    rw [List.foldl_cons, ih, List.flatMap_cons, pushAll_append]
    congr 1
    unfold neighbourStepX pushesX
    cases wrapIndex g.periodic_x g.nx (d + i) with
    | none => rfl
    | some id_x => exact foldl_neighbourStepY g i j id_x pluss_minus t

theorem cellIndex_inj {n i j i2 j2 : Nat} (hj : j < n) (hj2 : j2 < n)
    (h : j + n * i = j2 + n * i2) : i = i2 ∧ j = j2 := by
  have hi : i = i2 := by nlinarith
  subst hi
  omega

theorem cellIndex_lt {nx ny i j : Nat} (hi : i < nx) (hj : j < ny) :
    j + ny * i < nx * ny := by
  nlinarith

/-- One row of the table: the loop over `j` for a fixed `i = m`, run for `j < k`. -/
theorem createDomainGrid_row (g : MeshGenerator) (m k : Nat) (t : List (List Int)) :
    ((List.range k).foldl
        (fun table j => pluss_minus.foldl (neighbourStepX g m j) table) t).length = t.length
    ∧ (∀ c, (∀ j, j < k → c ≠ j + g.ny * m) →
        ((List.range k).foldl
          (fun table j => pluss_minus.foldl (neighbourStepX g m j) table) t)[c]? = t[c]?)
    ∧ (∀ j, j < k →
        ((List.range k).foldl
          (fun table j => pluss_minus.foldl (neighbourStepX g m j) table) t)[j + g.ny * m]?
          = (t[j + g.ny * m]?).map (fun l => l ++ cellNeighbours g m j)) := by
  induction k with
  | zero => simp
  | succ k ih =>
    obtain ⟨ih1, ih2, ih3⟩ := ih
    rw [List.range_succ, List.foldl_append]
    simp only [List.foldl_cons, List.foldl_nil]
    rw [foldl_neighbourStepX]
    refine ⟨?_, ?_, ?_⟩
    · rw [length_pushAll, ih1]
    · intro c hc
      rw [getElem?_pushAll, if_neg (hc k (Nat.lt_succ_self k))]
      exact ih2 c (fun j hj => hc j (Nat.lt_succ_of_lt hj))
    · intro j hj
      rw [getElem?_pushAll]
      by_cases hjk : j = k
      · subst hjk
        rw [if_pos rfl, ih2 _ (fun j2 hj2 => by omega)]
        rfl
      · have hne : j + g.ny * m ≠ k + g.ny * m := by omega
        rw [if_neg hne]
        exact ih3 j (by omega)

/-- The rows `i < m` of the table. -/
theorem createDomainGrid_rows (g : MeshGenerator) (m : Nat) (t : List (List Int)) :
    ((List.range m).foldl
        (fun table i => (List.range g.ny).foldl
          (fun table j => pluss_minus.foldl (neighbourStepX g i j) table) table) t).length
      = t.length
    ∧ (∀ c, (∀ i j, i < m → j < g.ny → c ≠ j + g.ny * i) →
        ((List.range m).foldl
          (fun table i => (List.range g.ny).foldl
            (fun table j => pluss_minus.foldl (neighbourStepX g i j) table) table) t)[c]?
          = t[c]?)
    ∧ (∀ i j, i < m → j < g.ny →
        ((List.range m).foldl
          (fun table i => (List.range g.ny).foldl
            (fun table j => pluss_minus.foldl (neighbourStepX g i j) table) table)
          t)[j + g.ny * i]?
          = (t[j + g.ny * i]?).map (fun l => l ++ cellNeighbours g i j)) := by
  induction m with
  | zero => simp
  | succ m ih =>
    obtain ⟨ih1, ih2, ih3⟩ := ih
    rw [List.range_succ, List.foldl_append]
    simp only [List.foldl_cons, List.foldl_nil]
    obtain ⟨r1, r2, r3⟩ := createDomainGrid_row g m g.ny
      ((List.range m).foldl
        (fun table i => (List.range g.ny).foldl
          (fun table j => pluss_minus.foldl (neighbourStepX g i j) table) table) t)
    refine ⟨?_, ?_, ?_⟩
    · rw [r1, ih1]
    · intro c hc
      rw [r2 c (fun j hj => hc m j (Nat.lt_succ_self m) hj)]
      exact ih2 c (fun i j hi hj => hc i j (Nat.lt_succ_of_lt hi) hj)
    · intro i j hi hj
      by_cases him : i = m
      · subst him
        rw [r3 j hj, ih2]
        intro i2 j2 hi2 hj2 hEq
        have := (cellIndex_inj hj hj2 hEq).1
        omega
      · rw [r2]
        · exact ih3 i j (by omega) hj
        · intro j2 hj2 hEq
          exact him (cellIndex_inj hj hj2 hEq).1

/-- Entry `j + ny*i` of `gridNeighbours` is what was pushed while visiting cell `(i, j)`. -/
theorem createDomainGrid_getElem? (g : MeshGenerator) (i j : Nat) (hi : i < g.nx)
    (hj : j < g.ny) :
    (createDomainGrid g)[j + g.ny * i]? = some (cellNeighbours g i j) := by
  unfold createDomainGrid
  rw [(createDomainGrid_rows g g.nx _).2.2 i j hi hj, List.getElem?_replicate,
    if_pos (cellIndex_lt hi hj)]
  simp

theorem length_createDomainGrid (g : MeshGenerator) :
    (createDomainGrid g).length = g.nx * g.ny := by
  unfold createDomainGrid
  rw [(createDomainGrid_rows g g.nx _).1, List.length_replicate]

/-! ## The neighbours pushed for one cell -/

theorem mem_pluss_minus (d : Int) : d ∈ pluss_minus ↔ d = -1 ∨ d = 0 ∨ d = 1 := by
  simp [pluss_minus]

theorem wrapIndex_eq (p : Bool) (n : Nat) (id : Int) :
    wrapIndex p n id =
      if id < 0 then (if p then some ((n : Int) - 1) else none)
      else if id ≥ (n : Int) then (if p then some 0 else none)
      else some id := by
  unfold wrapIndex wrapLow wrapHigh
  by_cases h1 : id < 0
  · cases p
    · simp [h1]
    · simp [h1, Option.bind]
  · by_cases h2 : id ≥ (n : Int)
    · simp [h1, h2, Option.bind]
    · simp [h1, h2, Option.bind]

/-- A wrapped index is a valid index, the opposite offset leads back, and without
periodicity nothing is wrapped. -/
theorem wrapIndex_spec {p : Bool} {n i : Nat} {d a : Int} (hd : d ∈ pluss_minus)
    (hi : i < n) (h : wrapIndex p n (d + i) = some a) :
    0 ≤ a ∧ a < n ∧ wrapIndex p n (-d + a) = some (i : Int) ∧ (p = false → a = d + i) := by
  rw [mem_pluss_minus] at hd
  rw [wrapIndex_eq] at h ⊢
  have hi2 : (i : Int) < n := by exact_mod_cast hi
  have hi0 : (0 : Int) ≤ i := Int.natCast_nonneg i
  cases p
  · simp only [Bool.false_eq_true, if_false] at h ⊢
    split_ifs at h
    simp only [Option.some.injEq] at h
    subst h
    refine ⟨by omega, by omega, ?_, fun _ => rfl⟩
    rcases hd with rfl | rfl | rfl <;>
    · split_ifs <;> first | omega | (simp)
  · simp only [if_true] at h ⊢
    rcases hd with rfl | rfl | rfl <;>
    · split_ifs at h <;> simp only [Option.some.injEq] at h <;> subst h <;>
      refine ⟨by omega, by omega, ?_, by simp⟩ <;>
      split_ifs <;> first | omega | (simp; done) | (simp; omega)

theorem mem_pushesY {g : MeshGenerator} {i j : Nat} {id_x b : Int} {d : Int} :
    b ∈ pushesY g i j id_x d ↔
      ∃ id_y, wrapIndex g.periodic_y g.ny (d + j) = some id_y
        ∧ b = id_y + (g.ny : Int) * id_x ∧ b ≠ (j : Int) + (g.ny : Int) * (i : Int) := by
  unfold pushesY
  cases wrapIndex g.periodic_y g.ny (d + j) with
  | none => simp
  | some id_y =>
    by_cases h : id_y + (g.ny : Int) * id_x = (j : Int) + (g.ny : Int) * (i : Int)
    · simp only [h, if_true, List.not_mem_nil, Option.some.injEq, false_iff]
      rintro ⟨y, rfl, rfl, hne⟩
      exact hne h
    · simp only [h, if_false, List.mem_singleton, Option.some.injEq]
      constructor
      · rintro rfl
        exact ⟨id_y, rfl, rfl, h⟩
      · rintro ⟨y, rfl, rfl, _⟩
        rfl

theorem mem_cellNeighbours {g : MeshGenerator} {i j : Nat} {b : Int} :
    b ∈ cellNeighbours g i j ↔
      ∃ dx ∈ pluss_minus, ∃ id_x, wrapIndex g.periodic_x g.nx (dx + i) = some id_x ∧
      ∃ dy ∈ pluss_minus, ∃ id_y, wrapIndex g.periodic_y g.ny (dy + j) = some id_y ∧
        b = id_y + (g.ny : Int) * id_x ∧ b ≠ (j : Int) + (g.ny : Int) * (i : Int) := by
  unfold cellNeighbours
  rw [List.mem_flatMap]
  constructor
  · rintro ⟨dx, hdx, hb⟩
    unfold pushesX at hb
    cases hx : wrapIndex g.periodic_x g.nx (dx + i) with
    | none => simp [hx] at hb
    | some id_x =>
      simp only [hx, List.mem_flatMap] at hb
      obtain ⟨dy, hdy, hb⟩ := hb
      obtain ⟨id_y, hy, hb1, hb2⟩ := mem_pushesY.1 hb
      exact ⟨dx, hdx, id_x, hx, dy, hdy, id_y, hy, hb1, hb2⟩
  · rintro ⟨dx, hdx, id_x, hx, dy, hdy, id_y, hy, hb1, hb2⟩
    refine ⟨dx, hdx, ?_⟩
    unfold pushesX
    simp only [hx, List.mem_flatMap]
    exact ⟨dy, hdy, mem_pushesY.2 ⟨id_y, hy, hb1, hb2⟩⟩

theorem length_pushesY_le (g : MeshGenerator) (i j : Nat) (id_x d : Int) :
    (pushesY g i j id_x d).length ≤ 1 := by
  unfold pushesY
  cases wrapIndex g.periodic_y g.ny (d + j) with
  | none => simp
  | some id_y =>
    by_cases h : id_y + (g.ny : Int) * id_x = (j : Int) + (g.ny : Int) * (i : Int)
    · simp [h]
    · simp [h]

theorem length_pushesX_le (g : MeshGenerator) (i j : Nat) (d : Int) :
    (pushesX g i j d).length ≤ 3 := by
  unfold pushesX
  cases wrapIndex g.periodic_x g.nx (d + i) with
  | none => simp
  | some id_x =>
    have h1 := length_pushesY_le g i j id_x (-1)
    have h2 := length_pushesY_le g i j id_x 0
    have h3 := length_pushesY_le g i j id_x 1
    simp only [pluss_minus, List.flatMap_cons, List.flatMap_nil, List.length_append,
      List.length_nil]
    omega

theorem wrapIndex_zero (p : Bool) {n i : Nat} (hi : i < n) :
    wrapIndex p n (0 + i) = some (i : Int) := by
  have h1 : ¬ ((0 : Int) + i < 0) := by omega
  have h2 : ¬ ((0 : Int) + i ≥ n) := by omega
  rw [wrapIndex_eq, if_neg h1, if_neg h2]
  simp

/-- The pass with both offsets `0` finds the cell itself and pushes nothing. -/
theorem length_pushesX_zero_le (g : MeshGenerator) {i j : Nat} (hi : i < g.nx)
    (hj : j < g.ny) : (pushesX g i j 0).length ≤ 2 := by
  unfold pushesX
  rw [wrapIndex_zero g.periodic_x hi]
  have h1 := length_pushesY_le g i j i (-1)
  have h3 := length_pushesY_le g i j i 1
  have h2 : pushesY g i j i 0 = [] := by
    unfold pushesY
    rw [wrapIndex_zero g.periodic_y hj]
    simp
  simp only [pluss_minus, List.flatMap_cons, List.flatMap_nil, List.length_append,
    List.length_nil, h2]
  omega

theorem length_cellNeighbours_le (g : MeshGenerator) {i j : Nat} (hi : i < g.nx)
    (hj : j < g.ny) : (cellNeighbours g i j).length ≤ 8 := by
  have h1 := length_pushesX_le g i j (-1)
  have h2 := length_pushesX_zero_le g hi hj
  have h3 := length_pushesX_le g i j 1
  simp only [cellNeighbours, pluss_minus, List.flatMap_cons, List.flatMap_nil,
    List.length_append, List.length_nil]
  omega

/-! ## C3, C4: the neighbour table -/

/-- Every in-range table index is the id `j + ny*i` of a cell `(i, j)`. -/
theorem cell_of_index {nx ny A : Nat} (hA : A < nx * ny) :
    A / ny < nx ∧ A % ny < ny ∧ A % ny + ny * (A / ny) = A := by
  have hny : 0 < ny := by
    rcases Nat.eq_zero_or_pos ny with h | h
    · subst h; simp at hA
    · exact h
  refine ⟨?_, Nat.mod_lt _ hny, Nat.mod_add_div A ny⟩
  rw [Nat.div_lt_iff_lt_mul hny]
  exact hA

/-- C3: the neighbour table built by `createDomainGrid` is symmetric: if `B` occurs in
`gridNeighbours[A]` then `A` occurs in `gridNeighbours[B]`, for every `nx`, `ny` and every
combination of the periodicity flags. -/
theorem createDomainGrid_symmetric (g : MeshGenerator) (A B : Nat) (la : List Int)
    (hA : (createDomainGrid g)[A]? = some la) (hB : (B : Int) ∈ la) :
    ∃ lb, (createDomainGrid g)[B]? = some lb ∧ (A : Int) ∈ lb := by
  have hlt : A < g.nx * g.ny := by
    rw [← length_createDomainGrid]
    exact (List.getElem?_eq_some_iff.1 hA).1
  obtain ⟨hi, hj, hij⟩ := cell_of_index hlt
  rw [← hij, createDomainGrid_getElem? g _ _ hi hj] at hA
  simp only [Option.some.injEq] at hA
  subst hA
  obtain ⟨dx, hdx, id_x, hx, dy, hdy, id_y, hy, hb, hne⟩ := mem_cellNeighbours.1 hB
  obtain ⟨hx0, hx1, hxb, -⟩ := wrapIndex_spec hdx hi hx
  obtain ⟨hy0, hy1, hyb, -⟩ := wrapIndex_spec hdy hj hy
  obtain ⟨i2, rfl⟩ := Int.eq_ofNat_of_zero_le hx0
  obtain ⟨j2, rfl⟩ := Int.eq_ofNat_of_zero_le hy0
  have hi2 : i2 < g.nx := by exact_mod_cast hx1
  have hj2 : j2 < g.ny := by exact_mod_cast hy1
  have hBeq : B = j2 + g.ny * i2 := by exact_mod_cast hb
  subst hBeq
  refine ⟨cellNeighbours g i2 j2, createDomainGrid_getElem? g i2 j2 hi2 hj2, ?_⟩
  have hAint : (A : Int) = ((A % g.ny : Nat) : Int) + (g.ny : Int) * ((A / g.ny : Nat) : Int) := by
    exact_mod_cast hij.symm
  have hdx2 : -dx ∈ pluss_minus := by
    rw [mem_pluss_minus] at hdx ⊢
    omega
  have hdy2 : -dy ∈ pluss_minus := by
    rw [mem_pluss_minus] at hdy ⊢
    omega
  refine mem_cellNeighbours.2 ⟨-dx, hdx2, (A / g.ny : Nat), hxb, -dy, hdy2, (A % g.ny : Nat),
    hyb, ?_, ?_⟩
  · exact hAint
  · intro h
    apply hne
    rw [← hAint, h]
    push_cast
    rfl

/-- An instance of `createDomainGrid_symmetric` on the 2 x 2 grid: cell 2 occurs in the list
of cell 0, so cell 0 occurs in the list of cell 2. -/
theorem createDomainGrid_symmetric_witness :
    ∃ lb, (createDomainGrid grid22)[2]? = some lb ∧ ((0 : Nat) : Int) ∈ lb :=
  createDomainGrid_symmetric grid22 0 2 [2, 3, 1, 2, 3] (by decide) (by decide)

/-- C4: for every cell `A = j + ny*i` the list `gridNeighbours[A]` has at most 8 entries,
every entry is a valid cell id in `[0, nx*ny)`, no entry equals `A`, and on a non-periodic
axis the cell coordinate of every entry differs from that of `A` by at most 1. -/
theorem createDomainGrid_neighbours_valid (g : MeshGenerator) (i j : Nat) (hi : i < g.nx)
    (hj : j < g.ny) :
    ∃ l, (createDomainGrid g)[j + g.ny * i]? = some l ∧ l.length ≤ 8 ∧
      ∀ b ∈ l, 0 ≤ b ∧ b < (g.nx : Int) * (g.ny : Int)
        ∧ b ≠ ((j + g.ny * i : Nat) : Int)
        ∧ (g.periodic_x = false → |b / (g.ny : Int) - (i : Int)| ≤ 1)
        ∧ (g.periodic_y = false → |b % (g.ny : Int) - (j : Int)| ≤ 1) := by
  refine ⟨cellNeighbours g i j, createDomainGrid_getElem? g i j hi hj,
    length_cellNeighbours_le g hi hj, ?_⟩
  intro b hb
  obtain ⟨dx, hdx, id_x, hx, dy, hdy, id_y, hy, hb, hne⟩ := mem_cellNeighbours.1 hb
  obtain ⟨hx0, hx1, -, hxp⟩ := wrapIndex_spec hdx hi hx
  obtain ⟨hy0, hy1, -, hyp⟩ := wrapIndex_spec hdy hj hy
  have hny : (0 : Int) < g.ny := by omega
  have hdiv : b / (g.ny : Int) = id_x := by
    rw [hb, Int.add_mul_ediv_left _ _ (ne_of_gt hny), Int.ediv_eq_zero_of_lt hy0 hy1]
    simp
  have hmod : b % (g.ny : Int) = id_y := by
    rw [hb, Int.add_mul_emod_self_left, Int.emod_eq_of_lt hy0 hy1]
  rw [mem_pluss_minus] at hdx hdy
  refine ⟨?_, ?_, ?_, ?_, ?_⟩
  · rw [hb]; positivity
  · rw [hb]; nlinarith
  · push_cast; exact hne
  · intro hp
    rw [hdiv, hxp hp, abs_le]
    constructor <;> omega
  · intro hp
    rw [hmod, hyp hp, abs_le]
    constructor <;> omega

/-- An instance of `createDomainGrid_neighbours_valid`: cell `(0, 0)` of the 2 x 2 grid. -/
theorem createDomainGrid_neighbours_valid_witness :
    ∃ l, (createDomainGrid grid22)[0 + grid22.ny * 0]? = some l ∧ l.length ≤ 8 :=
  (createDomainGrid_neighbours_valid grid22 0 0 (by decide) (by decide)).imp
    (fun _ h => ⟨h.1, h.2.1⟩)

/-! ## C1, C2: `findGridId` and the membership lists -/

theorem sum_length_pushBack {α : Type} (t : List (List α)) (c : Nat) (v : α)
    (hc : c < t.length) :
    ((pushBack t c v).map List.length).sum = (t.map List.length).sum + 1 := by
  induction t generalizing c with
  | nil => simp at hc
  | cons l t ih =>
    cases c with
    | zero => simp [pushBack]; omega
    | succ c =>
      have hc2 : c < t.length := by simpa using hc
      simp [pushBack, ih c hc2]
      omega

/-- Pushing the sites of the list `sites` one after the other, each into the list of the
cell `cell i`: if every such cell exists, no push fails, and every list is extended by the
sites of that cell, in the order of `sites`. -/
theorem foldlM_pushSite (cell : Nat → Int) (sites : List Nat) (t0 : List (List Nat))
    (h : ∀ i ∈ sites, 0 ≤ cell i ∧ (cell i).toNat < t0.length) :
    ∃ t, sites.foldlM (fun table i => pushSite table (cell i) i) t0 = some t
      ∧ t.length = t0.length
      ∧ (∀ c : Nat, t[c]? = (t0[c]?).map (fun l => l ++ sites.filter (fun i => cell i = c)))
      ∧ (t.map List.length).sum = (t0.map List.length).sum + sites.length := by
  induction sites generalizing t0 with
  | nil => exact ⟨t0, rfl, rfl, by intro c; cases t0[c]? <;> simp, by simp⟩
  | cons i sites ih =>
    have hi := h i (List.mem_cons_self _ _)
    have hlen : (pushBack t0 (cell i).toNat i).length = t0.length := length_pushBack _ _ _
    obtain ⟨t, ht, htl, htc, hts⟩ := ih (pushBack t0 (cell i).toNat i) (by
      intro k hk
      rw [hlen]
      exact h k (List.mem_cons_of_mem _ hk))
    refine ⟨t, ?_, by rw [htl, hlen], ?_, ?_⟩
    · rw [List.foldlM_cons]
      simp only [pushSite, hi, and_self, if_true]
      exact ht
    · intro c
      rw [htc c, getElem?_pushBack]
      by_cases hc : c = (cell i).toNat
      · have hci : cell i = (c : Int) := by omega
        simp only [hc, if_true, List.filter_cons]
        cases t0[(cell i).toNat]? with
        | none => rfl
        | some l => simp [← hc, hci]
      · have hci : ¬ cell i = (c : Int) := by omega
        simp [hc, List.filter_cons, hci]
    · rw [hts, sum_length_pushBack _ _ _ hi.2, List.length_cons]
      omega

/-- When every site lies in an existing cell, `mapParticlesToGrid` succeeds, the list of
cell `c` is exactly the sites `i < n` with `findGridId (x i) = c` in increasing order, and
the lengths of the lists add up to `n`. -/
theorem mapParticlesToGrid_of_valid (g : MeshGenerator) (n : Nat) (x : Nat → ℚ × ℚ)
    (p : List (List Nat))
    (h : ∀ i, i < n → 0 ≤ findGridId g (x i) ∧ (findGridId g (x i)).toNat < p.length) :
    ∃ t, mapParticlesToGrid g n x p = some t
      ∧ t.length = p.length
      ∧ (∀ c : Nat, c < p.length →
          t[c]? = some ((List.range n).filter (fun i => findGridId g (x i) = c)))
      ∧ (t.map List.length).sum = n := by
  obtain ⟨t, ht, htl, htc, hts⟩ := foldlM_pushSite (fun i => findGridId g (x i))
    (List.range n) (p.map (fun _ => [])) (by
      intro i hi
      rw [List.length_map]
      exact h i (List.mem_range.1 hi))
  refine ⟨t, ht, by rw [htl, List.length_map], ?_, ?_⟩
  · intro c hc
    rw [htc c, List.getElem?_map, List.getElem?_eq_getElem hc]
    simp
  · rw [hts, List.length_range]
    have : ((p.map (fun _ => ([] : List Nat))).map List.length).sum = 0 := by
      induction p with
      | nil => rfl
      | cons a p ih => simp
    omega

/-- C2 (evaluation at the failing input): on the one-cell unit grid the point `(1, 0)`, on
the upper `x` boundary, gets `id_x = 1 = nx`, which the test `id_x > nx` lets through, so
`findGridId` returns `1`, which is not a cell id of a grid with `nx*ny = 1` cells. -/
theorem findGridId_upper_boundary :
    gridIdX unitGrid (1, 0) = 1 ∧ findGridId unitGrid (1, 0) = 1
      ∧ ¬ (findGridId unitGrid (1, 0) < (unitGrid.nx : Int) * (unitGrid.ny : Int)) := by
  norm_num [findGridId, gridIdX, gridIdY, boundaryCheck, truncToInt, unitGrid]

/-- C1 (evaluation at the failing input): with one site at `(1, 0)` on the one-cell unit
grid, `mapParticlesToGrid` pushes into `particlesInGridPoint[1]`, outside the table: the
site ends up in no membership list. -/
theorem mapParticlesToGrid_upper_boundary :
    mapParticlesToGrid unitGrid 1 (fun _ => (1, 0)) [[]] = none := by
  norm_num [mapParticlesToGrid, pushSite, findGridId, gridIdX, gridIdY, boundaryCheck,
    truncToInt, unitGrid, List.range_succ]

/-! ## The search scans the candidate sites in order -/

theorem cellAt_of_valid {α : Type} (t : List (List α)) {c : Int} (h0 : 0 ≤ c)
    (h1 : c.toNat < t.length) : ∃ l, cellAt t c = some l := by
  refine ⟨t[c.toNat], ?_⟩
  simp [cellAt, h0, List.getElem?_eq_getElem h1]

/-- The loop over the neighbour cells is one scan over the concatenation of their lists. -/
theorem foldlM_neighbourCells {σ : Type} (f : σ → Nat → σ) (p : List (List Nat))
    (nbs : List Int) (st : σ) (h : ∀ c ∈ nbs, ∃ l, cellAt p c = some l) :
    nbs.foldlM
        (fun st gridNeighbour => do
          let cell ← cellAt p gridNeighbour
          pure (cell.foldl f st))
        st
      = some ((nbs.flatMap (fun c => (cellAt p c).getD [])).foldl f st) := by
  induction nbs generalizing st with
  | nil => rfl
  | cons c nbs ih =>
    obtain ⟨l, hl⟩ := h c (List.mem_cons_self _ _)
    rw [List.foldlM_cons, List.flatMap_cons, List.foldl_append]
    simp only [hl, Option.getD_some]
    exact ih _ (fun d hd => h d (List.mem_cons_of_mem _ hd))

theorem mem_candidateSites {p : List (List Nat)} {own : List Nat} {nbs : List Int} {k : Nat}
    (h : ∀ c ∈ nbs, ∃ l, cellAt p c = some l) :
    k ∈ candidateSites p own nbs ↔
      k ∈ own ∨ ∃ c ∈ nbs, ∃ l, cellAt p c = some l ∧ k ∈ l := by
  unfold candidateSites
  rw [List.mem_append, List.mem_flatMap]
  constructor
  · rintro (hk | ⟨c, hc, hk⟩)
    · exact Or.inl hk
    · obtain ⟨l, hl⟩ := h c hc
      rw [hl] at hk
      exact Or.inr ⟨c, hc, l, hl, hk⟩
  · rintro (hk | ⟨c, hc, l, hl, hk⟩)
    · exact Or.inl hk
    · refine Or.inr ⟨c, hc, ?_⟩
      rw [hl]
      exact hk

theorem candidateSites_eq_nil {p : List (List Nat)} {own : List Nat} {nbs : List Int}
    (h : ∀ c ∈ nbs, ∃ l, cellAt p c = some l) :
    candidateSites p own nbs = [] ↔ own = [] ∧ ∀ c ∈ nbs, cellAt p c = some [] := by
  constructor
  · intro hnil
    have hall : ∀ k, ¬ k ∈ candidateSites p own nbs := by
      intro k
      rw [hnil]
      exact List.not_mem_nil k
    refine ⟨List.eq_nil_iff_forall_not_mem.2 (fun k hk =>
      hall k ((mem_candidateSites h).2 (Or.inl hk))), ?_⟩
    intro c hc
    obtain ⟨l, hl⟩ := h c hc
    rw [hl]
    congr 1
    exact List.eq_nil_iff_forall_not_mem.2 (fun k hk =>
      hall k ((mem_candidateSites h).2 (Or.inr ⟨c, hc, l, hl, hk⟩)))
  · rintro ⟨hown, hnb⟩
    refine List.eq_nil_iff_forall_not_mem.2 (fun k hk => ?_)
    rcases (mem_candidateSites h).1 hk with hk | ⟨c, hc, l, hl, hk⟩
    · rw [hown] at hk
      exact List.not_mem_nil k hk
    · rw [hnb c hc] at hl
      cases hl
      exact List.not_mem_nil k hk

/-- The tables of a well-formed grid state can be read at every valid cell id. -/
theorem tables_readable {p : List (List Nat)} {nb : List (List Int)}
    (hwf : WellFormedTables p nb) {c : Int} (h0 : 0 ≤ c) (h1 : c.toNat < p.length) :
    ∃ own nbs, cellAt p c = some own ∧ cellAt nb c = some nbs
      ∧ ∀ d ∈ nbs, ∃ l, cellAt p d = some l := by
  obtain ⟨own, hown⟩ := cellAt_of_valid p h0 h1
  obtain ⟨nbs, hnbs⟩ := cellAt_of_valid nb h0 (by rw [hwf.1]; exact h1)
  refine ⟨own, nbs, hown, hnbs, ?_⟩
  intro d hd
  have hmem : nbs ∈ nb := by
    simp only [cellAt, h0, if_true] at hnbs
    exact List.getElem?_mem hnbs
  obtain ⟨hd0, hd1⟩ := hwf.2 nbs hmem d hd
  exact cellAt_of_valid p hd0 hd1

theorem nearestSiteSearch_eq (g : MeshGenerator) (x : Nat → ℚ × ℚ) (p : List (List Nat))
    (nb : List (List Int)) (y : ℚ × ℚ) {own : List Nat} {nbs : List Int}
    (hown : cellAt p (findGridId g y) = some own)
    (hnbs : cellAt nb (findGridId g y) = some nbs)
    (h : ∀ c ∈ nbs, ∃ l, cellAt p c = some l) :
    nearestSiteSearch g x p nb y
      = some ((candidateSites p own nbs).foldl (visitSite g x y)
          { maxLen := none, indexMax := -1, y_tmp := y }) := by
  unfold nearestSiteSearch candidateSites
  rw [List.foldl_append, ← foldlM_neighbourCells _ _ _ _ h]
  simp only [hown, hnbs]
  rfl

/-- Invariant of a scan: either nothing was seen and the state is the initial one, or the
state records a site seen so far that is at least as close as every site seen so far. -/
theorem foldl_visitSite (g : MeshGenerator) (x : Nat → ℚ × ℚ) (y : ℚ × ℚ)
    (cs seen : List Nat) (st : SearchState)
    (h : (seen = [] ∧ st = { maxLen := none, indexMax := -1, y_tmp := y })
      ∨ ∃ k ∈ seen, st = { maxLen := some (sqDist g y (x k)), indexMax := (k : Int),
                            y_tmp := shiftedSample g y (x k) }
          ∧ ∀ k2 ∈ seen, sqDist g y (x k) ≤ sqDist g y (x k2)) :
    (seen ++ cs = [] ∧ cs.foldl (visitSite g x y) st
        = { maxLen := none, indexMax := -1, y_tmp := y })
      ∨ ∃ k ∈ seen ++ cs, cs.foldl (visitSite g x y) st
          = { maxLen := some (sqDist g y (x k)), indexMax := (k : Int),
              y_tmp := shiftedSample g y (x k) }
          ∧ ∀ k2 ∈ seen ++ cs, sqDist g y (x k) ≤ sqDist g y (x k2) := by
  induction cs generalizing seen st with
  | nil => simpa using h
  | cons c cs ih =>
    have hstep := ih (seen ++ [c]) (visitSite g x y st c) (by
      right
      rcases h with ⟨hseen, hst⟩ | ⟨k, hk, hst, hmin⟩
      · subst hseen hst
        refine ⟨c, by simp, by simp [visitSite, belowMaxLen], ?_⟩
        intro k2 hk2
        simp only [List.nil_append, List.mem_singleton] at hk2
        rw [hk2]
      · subst hst
        by_cases hlt : sqDist g y (x c) < sqDist g y (x k)
        · refine ⟨c, by simp, by simp [visitSite, belowMaxLen, hlt], ?_⟩
          intro k2 hk2
          rcases List.mem_append.1 hk2 with hk2 | hk2
          · exact le_trans (le_of_lt hlt) (hmin k2 hk2)
          · rw [List.mem_singleton.1 hk2]
        · refine ⟨k, List.mem_append_left _ hk, by simp [visitSite, belowMaxLen, hlt], ?_⟩
          intro k2 hk2
          rcases List.mem_append.1 hk2 with hk2 | hk2
          · exact hmin k2 hk2
          · rw [List.mem_singleton.1 hk2]
            exact not_lt.1 hlt)
    simpa using hstep

/-! ## C5: the nearest-site search of the relaxation loop -/

/-- The entries pushed for a cell are cell ids. -/
theorem cellNeighbours_bounds (g : MeshGenerator) {i j : Nat} (hi : i < g.nx)
    (hj : j < g.ny) {b : Int} (hb : b ∈ cellNeighbours g i j) :
    0 ≤ b ∧ b < (g.nx : Int) * (g.ny : Int) := by
  obtain ⟨dx, hdx, id_x, hx, dy, hdy, id_y, hy, hb, -⟩ := mem_cellNeighbours.1 hb
  obtain ⟨hx0, hx1, -, -⟩ := wrapIndex_spec hdx hi hx
  obtain ⟨hy0, hy1, -, -⟩ := wrapIndex_spec hdy hj hy
  constructor
  · rw [hb]; positivity
  · rw [hb]; nlinarith

/-- The neighbour table of `createDomainGrid` fits every membership table with one list per
cell. -/
theorem wellFormedTables_createDomainGrid (g : MeshGenerator) (p : List (List Nat))
    (hp : p.length = g.nx * g.ny) : WellFormedTables p (createDomainGrid g) := by
  refine ⟨by rw [length_createDomainGrid, hp], ?_⟩
  intro l hl c hc
  obtain ⟨A, hA⟩ := List.mem_iff_getElem?.1 hl
  have hlt : A < g.nx * g.ny := by
    rw [← length_createDomainGrid]
    exact (List.getElem?_eq_some_iff.1 hA).1
  obtain ⟨hi, hj, hij⟩ := cell_of_index hlt
  have hl2 := createDomainGrid_getElem? g _ _ hi hj
  rw [hij, hA] at hl2
  cases hl2
  obtain ⟨h0, h1⟩ := cellNeighbours_bounds g hi hj hc
  refine ⟨h0, ?_⟩
  rw [hp]
  have : ((c.toNat : Nat) : Int) < ((g.nx * g.ny : Nat) : Int) := by
    rw [Int.toNat_of_nonneg h0]
    push_cast
    exact h1
  exact_mod_cast this

/-- The result of the search in terms of the candidate sites. -/
theorem nearestSiteSearch_result (g : MeshGenerator) (x : Nat → ℚ × ℚ)
    (p : List (List Nat)) (nb : List (List Int)) (y : ℚ × ℚ) {own : List Nat}
    {nbs : List Int} (hown : cellAt p (findGridId g y) = some own)
    (hnbs : cellAt nb (findGridId g y) = some nbs)
    (h : ∀ c ∈ nbs, ∃ l, cellAt p c = some l) :
    (candidateSites p own nbs = [] ∧ nearestSiteSearch g x p nb y
        = some { maxLen := none, indexMax := -1, y_tmp := y })
      ∨ ∃ k ∈ candidateSites p own nbs, nearestSiteSearch g x p nb y
          = some { maxLen := some (sqDist g y (x k)), indexMax := (k : Int),
                   y_tmp := shiftedSample g y (x k) }
          ∧ ∀ k2 ∈ candidateSites p own nbs, sqDist g y (x k) ≤ sqDist g y (x k2) := by
  rw [nearestSiteSearch_eq g x p nb y hown hnbs h]
  have := foldl_visitSite g x y (candidateSites p own nbs) [] _ (Or.inl ⟨rfl, rfl⟩)
  simpa using this

/-- C5: for every query point `y` that lies in a cell of a well-formed grid state, the
search of the relaxation loop returns `-1` if and only if the cell `findGridId(y)` and all
cells of its neighbour list contain no site; otherwise it returns a site `k` stored in one
of those cells whose squared minimum-image distance to `y` is at most that of every site
stored in those cells. -/
theorem nearestSiteSearch_nearest (g : MeshGenerator) (x : Nat → ℚ × ℚ)
    (p : List (List Nat)) (nb : List (List Int)) (y : ℚ × ℚ)
    (hwf : WellFormedTables p nb) (h0 : 0 ≤ findGridId g y)
    (h1 : (findGridId g y).toNat < p.length) :
    ∃ own nbs st, cellAt p (findGridId g y) = some own
      ∧ cellAt nb (findGridId g y) = some nbs
      ∧ nearestSiteSearch g x p nb y = some st
      ∧ (st.indexMax = -1 ↔ own = [] ∧ ∀ c ∈ nbs, cellAt p c = some [])
      ∧ (st.indexMax ≠ -1 → ∃ k : Nat, st.indexMax = (k : Int)
          ∧ (k ∈ own ∨ ∃ c ∈ nbs, ∃ l, cellAt p c = some l ∧ k ∈ l)
          ∧ ∀ k2 : Nat, (k2 ∈ own ∨ ∃ c ∈ nbs, ∃ l, cellAt p c = some l ∧ k2 ∈ l) →
              sqDist g y (x k) ≤ sqDist g y (x k2)) := by
  obtain ⟨own, nbs, hown, hnbs, hval⟩ := tables_readable hwf h0 h1
  rcases nearestSiteSearch_result g x p nb y hown hnbs hval with
    ⟨hnil, hst⟩ | ⟨k, hk, hst, hmin⟩
  · refine ⟨own, nbs, _, hown, hnbs, hst, ?_, ?_⟩
    · simp only [true_iff]
      exact (candidateSites_eq_nil hval).1 hnil
    · intro hne
      exact absurd rfl hne
  · refine ⟨own, nbs, _, hown, hnbs, hst, ?_, ?_⟩
    · constructor
      · intro hneg
        simp only at hneg
        omega
      · intro hempty
        rw [(candidateSites_eq_nil hval).2 hempty] at hk
        exact absurd hk (List.not_mem_nil k)
    · intro _
      refine ⟨k, rfl, (mem_candidateSites hval).1 hk, ?_⟩
      intro k2 hk2
      exact hmin k2 ((mem_candidateSites hval).2 hk2)

/-- An instance of `nearestSiteSearch_nearest`: two sites on the 2 x 2 grid, query point
`(1/4, 1/4)`. -/
theorem nearestSiteSearch_nearest_witness :
    ∃ st, nearestSiteSearch grid22 twoSites [[0], [], [], [1]] (createDomainGrid grid22)
      (1 / 4, 1 / 4) = some st :=
  (nearestSiteSearch_nearest grid22 twoSites [[0], [], [], [1]] (createDomainGrid grid22)
    (1 / 4, 1 / 4) (wellFormedTables_createDomainGrid grid22 _ (by decide))
    (by norm_num [findGridId, gridIdX, gridIdY, boundaryCheck, truncToInt, grid22])
    (by norm_num [findGridId, gridIdX, gridIdY, boundaryCheck, truncToInt, grid22])).elim
    (fun _ h => h.elim (fun _ h => h.elim (fun st h => ⟨st, h.2.2.1⟩)))

/-! ## C6: the minimum-image adjustment -/

/-- C6: on a periodic axis with extent `D = X1 - X0 > 0`, for a query coordinate `q` and a
site coordinate `s` that both lie in `[X0, X1]`, the offset `q - s` after the minimum-image
adjustment has absolute value at most `D/2`, in `createMesh` (`adjustAxis`) as well as in
`save_image_and_xyz` (`minImage`). -/
theorem minimumImage_abs_le_half (X0 X1 q s : ℚ) (hD : 0 < X1 - X0)
    (hq : X0 ≤ q ∧ q ≤ X1) (hs : X0 ≤ s ∧ s ≤ X1) :
    |(adjustAxis true (X1 - X0) (q - s) q).1| ≤ (X1 - X0) / 2
      ∧ |minImage true (X1 - X0) (q - s)| ≤ (X1 - X0) / 2 := by
  obtain ⟨hq0, hq1⟩ := hq
  obtain ⟨hs0, hs1⟩ := hs
  constructor
  · unfold adjustAxis
    simp only [if_true]
    split_ifs <;> (rw [abs_le]; constructor <;> linarith)
  · unfold minImage
    simp only [if_true]
    split_ifs <;> (rw [abs_le]; constructor <;> linarith)

/-- An instance of `minimumImage_abs_le_half`: query at `9/10`, site at `1/10` on `[0, 1]`;
the raw offset `4/5` is folded to `-1/5`. -/
theorem minimumImage_abs_le_half_witness :
    |(adjustAxis true (1 - 0) (9 / 10 - 1 / 10) (9 / 10)).1| ≤ ((1 : ℚ) - 0) / 2
      ∧ |minImage true (1 - 0) (9 / 10 - 1 / 10)| ≤ ((1 : ℚ) - 0) / 2 :=
  minimumImage_abs_le_half 0 1 (9 / 10) (1 / 10) (by norm_num) (by norm_num) (by norm_num)

/-! ## C7: the position added to the accumulator -/

/-- The adjustment shifts the offset and the copy of the sample coordinate by the same
amount, which is `-D`, `0` or `+D`, and `0` without periodicity. -/
theorem adjustAxis_shift (p : Bool) (D x_k y_c : ℚ) :
    (adjustAxis p D x_k y_c).2 - y_c = (adjustAxis p D x_k y_c).1 - x_k
      ∧ ((adjustAxis p D x_k y_c).2 = y_c - D ∨ (adjustAxis p D x_k y_c).2 = y_c
          ∨ (adjustAxis p D x_k y_c).2 = y_c + D)
      ∧ (p = false → (adjustAxis p D x_k y_c).2 = y_c) := by
  unfold adjustAxis
  cases p
  · simp
  · simp only [if_true]
    split_ifs <;> simp

/-- C7: for the site `k` selected for the sample `y`, the position `y_tmp` added to the
accumulator of `k` satisfies on each axis `y_tmp - x_k =` the adjusted offset that gave the
winning distance; `y_tmp` is `y` shifted by `-D`, `0` or `+D`, and `y_tmp = y` on a
non-periodic axis. The shift of a candidate that did not win does not enter: `y_tmp` is
determined by `y` and the position of the winner alone. -/
theorem sampleStep_adds_shifted_sample (g : MeshGenerator) (x : Nat → ℚ × ℚ)
    (p : List (List Nat)) (nb : List (List Int)) (neighbours : Nat → ℚ × ℚ × ℚ) (y : ℚ × ℚ)
    (hwf : WellFormedTables p nb) (h0 : 0 ≤ findGridId g y)
    (h1 : (findGridId g y).toNat < p.length) :
    ∃ st, nearestSiteSearch g x p nb y = some st
      ∧ sampleStep g x p nb neighbours y = some (storeResult neighbours st)
      ∧ (st.indexMax = -1 → storeResult neighbours st = neighbours)
      ∧ ∀ k : Nat, st.indexMax = (k : Int) →
          storeResult neighbours st k
              = ((neighbours k).1 + st.y_tmp.1, (neighbours k).2.1 + st.y_tmp.2,
                 (neighbours k).2.2 + 1)
          ∧ st.maxLen = some (sqDist g y (x k))
          ∧ st.y_tmp = shiftedSample g y (x k)
          ∧ st.y_tmp.1 - (x k).1 = (adjustAxis g.periodic_x g.DX (y.1 - (x k).1) y.1).1
          ∧ st.y_tmp.2 - (x k).2 = (adjustAxis g.periodic_y g.DY (y.2 - (x k).2) y.2).1
          ∧ (st.y_tmp.1 = y.1 - g.DX ∨ st.y_tmp.1 = y.1 ∨ st.y_tmp.1 = y.1 + g.DX)
          ∧ (st.y_tmp.2 = y.2 - g.DY ∨ st.y_tmp.2 = y.2 ∨ st.y_tmp.2 = y.2 + g.DY)
          ∧ (g.periodic_x = false → st.y_tmp.1 = y.1)
          ∧ (g.periodic_y = false → st.y_tmp.2 = y.2) := by
  obtain ⟨own, nbs, hown, hnbs, hval⟩ := tables_readable hwf h0 h1
  rcases nearestSiteSearch_result g x p nb y hown hnbs hval with
    ⟨-, hst⟩ | ⟨k, -, hst, -⟩
  · refine ⟨_, hst, by simp [sampleStep, hst], ?_, ?_⟩
    · intro _
      simp [storeResult]
    · intro k hk
      simp only at hk
      omega
  · refine ⟨_, hst, by simp [sampleStep, hst], ?_, ?_⟩
    · intro hk
      simp only at hk
      omega
    · intro k2 hk2
      simp only [Nat.cast_inj] at hk2
      subst hk2
      obtain ⟨hx1, hx2, hx3⟩ :=
        adjustAxis_shift g.periodic_x g.DX (y.1 - (x k).1) y.1
      obtain ⟨hy1, hy2, hy3⟩ :=
        adjustAxis_shift g.periodic_y g.DY (y.2 - (x k).2) y.2
      refine ⟨?_, rfl, rfl, ?_, ?_, hx2, hy2, hx3, hy3⟩
      · simp [storeResult]
      · simp only [shiftedSample]
        linarith
      · simp only [shiftedSample]
        linarith

/-- An instance of `sampleStep_adds_shifted_sample`: two sites on the 2 x 2 grid, sample
`(1/4, 1/4)`. -/
theorem sampleStep_adds_shifted_sample_witness :
    ∃ st, nearestSiteSearch grid22 twoSites [[0], [], [], [1]] (createDomainGrid grid22)
        (1 / 4, 1 / 4) = some st
      ∧ sampleStep grid22 twoSites [[0], [], [], [1]] (createDomainGrid grid22)
        (fun _ => (0, 0, 0)) (1 / 4, 1 / 4) = some (storeResult (fun _ => (0, 0, 0)) st) :=
  (sampleStep_adds_shifted_sample grid22 twoSites [[0], [], [], [1]]
    (createDomainGrid grid22) (fun _ => (0, 0, 0)) (1 / 4, 1 / 4)
    (wellFormedTables_createDomainGrid grid22 _ (by decide))
    (by norm_num [findGridId, gridIdX, gridIdY, boundaryCheck, truncToInt, grid22])
    (by norm_num [findGridId, gridIdX, gridIdY, boundaryCheck, truncToInt, grid22])).imp
    (fun _ h => ⟨h.1, h.2.1⟩)

/-! ## C8: the site-update pass -/

theorem updateSite_self (w : Weights) (s : Sites) (i : Nat) :
    (updateSite w s i).x i
        = (if (s.neighbours i).2.2 ≤ 0 then s.x i
           else blendedPosition w (s.x i) (s.js i) (s.neighbours i))
      ∧ (updateSite w s i).js i
        = (if (s.neighbours i).2.2 ≤ 0 then s.js i else s.js i + 1)
      ∧ (updateSite w s i).neighbours i
        = (if (s.neighbours i).2.2 ≤ 0 then s.neighbours i else (0, 0, 0)) := by
  unfold updateSite blendedPosition
  by_cases h : (s.neighbours i).2.2 ≤ 0
  · simp [h]
  · simp [h]

theorem updateSite_other (w : Weights) (s : Sites) {i k : Nat} (h : i ≠ k) :
    (updateSite w s k).x i = s.x i ∧ (updateSite w s k).js i = s.js i
      ∧ (updateSite w s k).neighbours i = s.neighbours i := by
  unfold updateSite
  by_cases hc : (s.neighbours k).2.2 ≤ 0
  · simp [hc]
  · simp [hc, Function.update_noteq h]

theorem updatePass_succ (w : Weights) (n : Nat) (s : Sites) :
    updatePass w (n + 1) s = updateSite w (updatePass w n s) n := by
  simp [updatePass, List.range_succ, List.foldl_append]

/-- The pass over the sites `0..n-1` leaves every other site alone. -/
theorem updatePass_ge (w : Weights) (n : Nat) (s : Sites) {i : Nat} (h : n ≤ i) :
    (updatePass w n s).x i = s.x i ∧ (updatePass w n s).js i = s.js i
      ∧ (updatePass w n s).neighbours i = s.neighbours i := by
  induction n with
  | zero => exact ⟨rfl, rfl, rfl⟩
  | succ n ih =>
    obtain ⟨h1, h2, h3⟩ := ih (by omega)
    obtain ⟨o1, o2, o3⟩ := updateSite_other w (updatePass w n s) (show i ≠ n by omega)
    rw [updatePass_succ, o1, o2, o3]
    exact ⟨h1, h2, h3⟩

/-- The pass changes site `i < n` exactly as the loop body for `i` does on the initial
state. -/
theorem updatePass_lt (w : Weights) (n : Nat) (s : Sites) {i : Nat} (h : i < n) :
    (updatePass w n s).x i = (updateSite w s i).x i
      ∧ (updatePass w n s).js i = (updateSite w s i).js i
      ∧ (updatePass w n s).neighbours i = (updateSite w s i).neighbours i := by
  induction n with
  | zero => omega
  | succ n ih =>
    rw [updatePass_succ]
    by_cases hin : i = n
    · subst hin
      obtain ⟨g1, g2, g3⟩ := updatePass_ge w i s (le_refl i)
      obtain ⟨a1, a2, a3⟩ := updateSite_self w (updatePass w i s) i
      obtain ⟨b1, b2, b3⟩ := updateSite_self w s i
      rw [a1, a2, a3, b1, b2, b3, g1, g2, g3]
      exact ⟨rfl, rfl, rfl⟩
    · obtain ⟨o1, o2, o3⟩ := updateSite_other w (updatePass w n s) hin
      rw [o1, o2, o3]
      exact ih (by omega)

/-- C8: in the site-update pass, a site `i` with accumulator `(sx, sy, c)`, `c > 0`, moves
to `((alpha1*j + beta1)*x_old + (alpha2*j + beta2)*u)/(j + 1)` with `u = (sx/c, sy/c)` and
its exposure count becomes `j + 1`; with `c = 0` its position and exposure count are
unchanged. The new position and count of site `i` depend on no other site: two states that
agree on site `i` give the same result for site `i`. -/
theorem updatePass_site (w : Weights) (n : Nat) (s : Sites) (i : Nat) (hi : i < n) :
    (0 < (s.neighbours i).2.2 →
        (updatePass w n s).x i
          = (((w.alpha_1 * s.js i + w.beta_1) * (s.x i).1
                + (w.alpha_2 * s.js i + w.beta_2)
                  * ((s.neighbours i).1 / (s.neighbours i).2.2)) / (s.js i + 1),
             ((w.alpha_1 * s.js i + w.beta_1) * (s.x i).2
                + (w.alpha_2 * s.js i + w.beta_2)
                  * ((s.neighbours i).2.1 / (s.neighbours i).2.2)) / (s.js i + 1))
        ∧ (updatePass w n s).js i = s.js i + 1)
      ∧ ((s.neighbours i).2.2 = 0 →
        (updatePass w n s).x i = s.x i ∧ (updatePass w n s).js i = s.js i)
      ∧ (∀ s2 : Sites, s2.x i = s.x i → s2.js i = s.js i →
          s2.neighbours i = s.neighbours i →
          (updatePass w n s2).x i = (updatePass w n s).x i
            ∧ (updatePass w n s2).js i = (updatePass w n s).js i) := by
  obtain ⟨p1, p2, -⟩ := updatePass_lt w n s hi
  obtain ⟨b1, b2, -⟩ := updateSite_self w s i
  refine ⟨?_, ?_, ?_⟩
  · intro hc
    rw [p1, p2, b1, b2, if_neg (not_le.2 hc), if_neg (not_le.2 hc)]
    exact ⟨rfl, rfl⟩
  · intro hc
    rw [p1, p2, b1, b2, if_pos (le_of_eq hc), if_pos (le_of_eq hc)]
    exact ⟨rfl, rfl⟩
  · intro s2 h1 h2 h3
    obtain ⟨q1, q2, -⟩ := updatePass_lt w n s2 hi
    obtain ⟨c1, c2, -⟩ := updateSite_self w s2 i
    rw [p1, p2, q1, q2, b1, b2, c1, c2, h1, h2, h3]
    exact ⟨rfl, rfl⟩

/-- An instance of `updatePass_site`: one site at `(1/2, 1/2)`, hit once by `(1/4, 3/4)`,
with weights `alpha_1 = 1`, `beta_2 = 1` and `alpha_2 = beta_1 = 0`, moves to
`(3/8, 5/8)`. -/
theorem updatePass_site_witness :
    (updatePass { alpha_1 := 1, alpha_2 := 0, beta_1 := 0, beta_2 := 1 } 1 oneSiteHit).x 0
      = (3 / 8, 5 / 8) := by
  have h := (updatePass_site { alpha_1 := 1, alpha_2 := 0, beta_1 := 0, beta_2 := 1 } 1
    oneSiteHit 0 (by decide)).1 (by norm_num [oneSiteHit])
  rw [h.1]
  norm_num [oneSiteHit]

/-! ## C9: the relaxation loop with weights that retain the old position -/

theorem findGridId_squareGrid_centre : findGridId squareGrid (2, 2) = 0 := by
  norm_num [findGridId, gridIdX, gridIdY, boundaryCheck, truncToInt, squareGrid]

theorem boundaryCheck_of_lt {n : Nat} {id : Int} (h0 : 0 ≤ id) (h1 : id < n) :
    boundaryCheck n id = id := by
  unfold boundaryCheck
  rw [if_neg (by omega), if_neg (by omega)]

/-- The index computed on one axis for a coordinate inside the tiled interval. -/
theorem axisIndex_inside {n : Nat} {lo c spacing : ℚ} (hs : 0 < spacing) (h0 : lo ≤ c)
    (h1 : c - lo < spacing * n) :
    0 ≤ boundaryCheck n (truncToInt ((c - lo) / spacing))
      ∧ boundaryCheck n (truncToInt ((c - lo) / spacing)) < n
      ∧ boundaryCheck n (truncToInt ((c - lo) / spacing)) = ⌊(c - lo) / spacing⌋ := by
  have ht0 : 0 ≤ (c - lo) / spacing := div_nonneg (by linarith) (le_of_lt hs)
  have ht1 : (c - lo) / spacing < n := by
    rw [div_lt_iff₀ hs]
    linarith
  have htr : truncToInt ((c - lo) / spacing) = ⌊(c - lo) / spacing⌋ := by
    unfold truncToInt
    rw [if_pos ht0]
  have hf0 : 0 ≤ ⌊(c - lo) / spacing⌋ := Int.floor_nonneg.2 ht0
  have hf1 : ⌊(c - lo) / spacing⌋ < (n : Int) := by
    rw [Int.floor_lt]
    exact_mod_cast ht1
  rw [htr, boundaryCheck_of_lt hf0 hf1]
  exact ⟨hf0, hf1, rfl⟩

theorem wrapCoordinate_inside {lo hi D c : ℚ} (h0 : lo ≤ c) (h1 : c < hi) :
    wrapCoordinate lo hi D c = c := by
  unfold wrapCoordinate
  simp only
  rw [if_neg (not_lt.2 h0), if_neg (not_le.2 h1)]

theorem wellFormedTables_of_length {p p2 : List (List Nat)} {nb : List (List Int)}
    (h : WellFormedTables p nb) (hl : p2.length = p.length) : WellFormedTables p2 nb := by
  unfold WellFormedTables at h ⊢
  rw [hl]
  exact h

/-- The sampling pass succeeds when every sample lies in a cell. -/
theorem foldlM_sampleStep (g : MeshGenerator) (x : Nat → ℚ × ℚ) (p : List (List Nat))
    (nb : List (List Int)) (hwf : WellFormedTables p nb) (samples : List (ℚ × ℚ))
    (neighbours : Nat → ℚ × ℚ × ℚ)
    (h : ∀ y ∈ samples, 0 ≤ findGridId g y ∧ (findGridId g y).toNat < p.length) :
    ∃ acc, samples.foldlM (fun neighbours y_r => sampleStep g x p nb neighbours y_r)
      neighbours = some acc := by
  induction samples generalizing neighbours with
  | nil => exact ⟨neighbours, rfl⟩
  | cons y samples ih =>
    obtain ⟨h0, h1⟩ := h y (List.mem_cons_self _ _)
    obtain ⟨own, nbs, hown, hnbs, hval⟩ := tables_readable hwf h0 h1
    have hsome : ∃ st, nearestSiteSearch g x p nb y = some st := by
      rcases nearestSiteSearch_result g x p nb y hown hnbs hval with
        ⟨-, hst⟩ | ⟨k, -, hst, -⟩
      · exact ⟨_, hst⟩
      · exact ⟨_, hst⟩
    obtain ⟨st, hst⟩ := hsome
    obtain ⟨acc, hacc⟩ := ih (storeResult neighbours st)
      (fun z hz => h z (List.mem_cons_of_mem _ hz))
    refine ⟨acc, ?_⟩
    rw [List.foldlM_cons]
    simp only [sampleStep, hst, Option.map_some', Option.bind_eq_bind, Option.some_bind]
    exact hacc

theorem mem_of_cellAt {α : Type} {t : List (List α)} {c : Int} {l : List α}
    (h : cellAt t c = some l) : l ∈ t := by
  unfold cellAt at h
  split_ifs at h
  exact List.getElem?_mem h

/-- C14 (counterexample): on the periodic axis `[0, 1]` of the 2 x 2 grid a site at
`x = 5/2` is moved to `3/2`, which is still outside the interval. -/
theorem checkBoundaries_far_site :
    (checkBoundaries grid22 1 (fun _ => (5 / 2, 1 / 4)) 0).1 = 3 / 2
      ∧ ¬ ((checkBoundaries grid22 1 (fun _ => (5 / 2, 1 / 4)) 0).1 < grid22.X_1) := by
  norm_num [checkBoundaries, wrapCoordinate, grid22, MeshGenerator.DX]

theorem wrapCoordinate_once {lo hi c : ℚ} (h0 : lo - (hi - lo) ≤ c)
    (h1 : c < hi + (hi - lo)) :
    lo ≤ wrapCoordinate lo hi (hi - lo) c ∧ wrapCoordinate lo hi (hi - lo) c < hi := by
  unfold wrapCoordinate
  simp only
  split_ifs <;> constructor <;> linarith

/-- C14 (amended): after `checkBoundaries` the coordinate of every site on a periodic axis
lies in `[X_0, X_1)` (resp. `[Y_0, Y_1)`) provided it was at most one domain extent outside
before the call (`X_0 - DX <= x < X_1 + DX`); coordinates on a non-periodic axis and
coordinates that were already inside the interval are unchanged. -/
theorem checkBoundaries_wraps_once (g : MeshGenerator) (n : Nat) (x : Nat → ℚ × ℚ) (k : Nat)
    (hk : k < n) :
    (g.periodic_x = true → g.X_0 - g.DX ≤ (x k).1 → (x k).1 < g.X_1 + g.DX →
        g.X_0 ≤ (checkBoundaries g n x k).1 ∧ (checkBoundaries g n x k).1 < g.X_1)
      ∧ (g.periodic_y = true → g.Y_0 - g.DY ≤ (x k).2 → (x k).2 < g.Y_1 + g.DY →
        g.Y_0 ≤ (checkBoundaries g n x k).2 ∧ (checkBoundaries g n x k).2 < g.Y_1)
      ∧ (g.periodic_x = false → (checkBoundaries g n x k).1 = (x k).1)
      ∧ (g.periodic_y = false → (checkBoundaries g n x k).2 = (x k).2)
      ∧ (g.X_0 ≤ (x k).1 → (x k).1 < g.X_1 → (checkBoundaries g n x k).1 = (x k).1)
      ∧ (g.Y_0 ≤ (x k).2 → (x k).2 < g.Y_1 → (checkBoundaries g n x k).2 = (x k).2) := by
  unfold checkBoundaries
  simp only [hk, if_true]
  refine ⟨?_, ?_, ?_, ?_, ?_, ?_⟩
  · intro hp h0 h1
    simp only [hp, if_true]
    exact wrapCoordinate_once h0 h1
  · intro hp h0 h1
    simp only [hp, if_true]
    exact wrapCoordinate_once h0 h1
  · intro hp
    simp [hp]
  · intro hp
    simp [hp]
  · intro h0 h1
    split_ifs
    · exact wrapCoordinate_inside h0 h1
    · rfl
  · intro h0 h1
    split_ifs
    · exact wrapCoordinate_inside h0 h1
    · rfl

/-- An instance of `checkBoundaries_wraps_once`: on the periodic axis `[0, 1]` a site at
`x = 5/4` is moved into the interval. -/
theorem checkBoundaries_wraps_once_witness :
    grid22.X_0 ≤ (checkBoundaries grid22 1 (fun _ => (5 / 4, 1 / 4)) 0).1
      ∧ (checkBoundaries grid22 1 (fun _ => (5 / 4, 1 / 4)) 0).1 < grid22.X_1 :=
  (checkBoundaries_wraps_once grid22 1 (fun _ => (5 / 4, 1 / 4)) 0 (by decide)).1 rfl
    (by norm_num [grid22, MeshGenerator.DX]) (by norm_num [grid22, MeshGenerator.DX])

/-! ## C18: the index drawn for redistribution -/

/-- C18 (evaluation at the failing input): with `X_0 = -2` and `N = 1` the value `-3/2`
lies in the range `[X_0, N)` of `distribution_rand_particle` and is truncated to the index
`-1`, which is not a site index. -/
theorem randomParticle_negative :
    InDrawRange (-2) 1 (-3 / 2) ∧ randomParticle (-3 / 2) = -1 := by
  refine ⟨by norm_num [InDrawRange], ?_⟩
  have h : ¬ ((0 : ℚ) ≤ -3 / 2) := by norm_num
  unfold randomParticle truncToInt
  rw [if_neg h, Int.ceil_eq_iff]
  norm_num

/-- With `X_0 = 1` and `N = 2` no draw from `[X_0, N)` gives the index `0`. -/
theorem randomParticle_never_zero (u : ℚ) (h : InDrawRange 1 2 u) : randomParticle u ≠ 0 := by
  obtain ⟨h0, _⟩ := h
  unfold randomParticle truncToInt
  rw [if_pos (by linarith)]
  have : (1 : Int) ≤ ⌊u⌋ := Int.le_floor.2 (by exact_mod_cast h0)
  omega

/-- With `X_0 = 0` every draw from `[0, N)` gives a site index, and every site index is
drawn. -/
theorem randomParticle_default (n : Nat) :
    (∀ u, InDrawRange 0 n u → 0 ≤ randomParticle u ∧ randomParticle u < n)
      ∧ ∀ i : Nat, i < n → InDrawRange 0 n i ∧ randomParticle i = i := by
  constructor
  · rintro u ⟨h0, h1⟩
    unfold randomParticle truncToInt
    rw [if_pos h0]
    refine ⟨Int.floor_nonneg.2 h0, ?_⟩
    rw [Int.floor_lt]
    exact_mod_cast h1
  · intro i hi
    refine ⟨⟨by positivity, by exact_mod_cast hi⟩, ?_⟩
    unfold randomParticle truncToInt
    rw [if_pos (by positivity)]
    simp

/-! ## C20: the pixel indices of the mask lookup -/

/-- C20 (evaluation at the failing input): on the domain `[1, 2] x [0, 1]` with a density
field of 10 x 10 pixels (`dx = 1/10`) the point `(3/2, 1/2)` inside the domain is looked
up in column `15`, outside the field. -/
theorem maskColumn_shifted_domain :
    InDomain shiftedGrid (3 / 2, 1 / 2)
      ∧ maskColumn shiftedGrid tenByTen (3 / 2, 1 / 2) = 15
      ∧ ¬ (maskColumn shiftedGrid tenByTen (3 / 2, 1 / 2) < (tenByTen.w : Int)) := by
  norm_num [InDomain, maskColumn, pixelSizeX, shiftedGrid, tenByTen, truncToInt]

/-- The mask test reads `img_data` at `(maskRow, maskColumn)`. -/
theorem occupied_eq (g : MeshGenerator) (f : DensityField) (r : ℚ × ℚ) :
    occupied g f r = decide (f.img_data (maskRow g f r) (maskColumn g f r) > 0) := rfl

/-- With the default lower bounds `X_0 = Y_0 = 0` the lookup of a point of the domain stays
inside the density field. -/
theorem mask_indices_default (g : MeshGenerator) (f : DensityField) (r : ℚ × ℚ)
    (hX : g.X_0 = 0) (hY : g.Y_0 = 0) (hw : 0 < f.w) (hh : 0 < f.h) (hr : InDomain g r) :
    0 ≤ maskRow g f r ∧ maskRow g f r < f.h ∧ 0 ≤ maskColumn g f r
      ∧ maskColumn g f r < f.w := by
  obtain ⟨hx0, hx1, hy0, hy1⟩ := hr
  rw [hX] at hx0
  rw [hY] at hy0
  have hw2 : (0 : ℚ) < f.w := by exact_mod_cast hw
  have hh2 : (0 : ℚ) < f.h := by exact_mod_cast hh
  have hdx : 0 < pixelSizeX g f := by
    unfold pixelSizeX
    rw [hX]
    exact div_pos (by linarith) hw2
  have hdy : 0 < pixelSizeY g f := by
    unfold pixelSizeY
    rw [hY]
    exact div_pos (by linarith) hh2
  have hcol0 : 0 ≤ r.1 / pixelSizeX g f := div_nonneg hx0 (le_of_lt hdx)
  have hrow0 : 0 ≤ r.2 / pixelSizeY g f := div_nonneg hy0 (le_of_lt hdy)
  have hcol1 : r.1 / pixelSizeX g f < f.w := by
    rw [div_lt_iff₀ hdx]
    unfold pixelSizeX
    rw [hX]
    field_simp
    linarith
  have hrow1 : r.2 / pixelSizeY g f < f.h := by
    rw [div_lt_iff₀ hdy]
    unfold pixelSizeY
    rw [hY]
    field_simp
    linarith
  unfold maskRow maskColumn truncToInt
  rw [if_pos hrow0, if_pos hcol0]
  refine ⟨Int.floor_nonneg.2 hrow0, ?_, Int.floor_nonneg.2 hcol0, ?_⟩
  · rw [Int.floor_lt]
    exact_mod_cast hrow1
  · rw [Int.floor_lt]
    exact_mod_cast hcol1

/-! ## `findGridId` with an exact quotient -/

/-- With the quotients `(r(0) - X_0)/gridSpacing_x` and `(r(1) - Y_0)/gridSpacing_y` taken
exactly (no rounding of the `double` division), on a grid with `nx, ny >= 1` and cell sizes
`DX/nx`, `DY/ny` a point `r` of the half-open domain gets the index `iy + ny*ix` of the
cell whose rectangle holds it; the case `id == nx` that the boundary check misses is then
never met inside the domain. -/
theorem findGridId_exact_cell_contains (g : MeshGenerator) (r : ℚ × ℚ) (hnx : 1 ≤ g.nx)
    (hny : 1 ≤ g.ny) (hsx : g.gridSpacing_x = g.DX / g.nx)
    (hsy : g.gridSpacing_y = g.DY / g.ny) (hr : InDomain g r) :
    findGridId g r = gridIdY g r + (g.ny : Int) * gridIdX g r
      ∧ 0 ≤ gridIdX g r ∧ gridIdX g r < g.nx
      ∧ 0 ≤ gridIdY g r ∧ gridIdY g r < g.ny
      ∧ 0 ≤ findGridId g r ∧ findGridId g r < (g.nx : Int) * (g.ny : Int)
      ∧ g.X_0 + (gridIdX g r : ℚ) * g.gridSpacing_x ≤ r.1
      ∧ r.1 < g.X_0 + ((gridIdX g r : ℚ) + 1) * g.gridSpacing_x
      ∧ g.Y_0 + (gridIdY g r : ℚ) * g.gridSpacing_y ≤ r.2
      ∧ r.2 < g.Y_0 + ((gridIdY g r : ℚ) + 1) * g.gridSpacing_y := by
  obtain ⟨hx0, hx1, hy0, hy1⟩ := hr
  have hnxq : (0 : ℚ) < g.nx := by exact_mod_cast hnx
  have hnyq : (0 : ℚ) < g.ny := by exact_mod_cast hny
  have hDX : 0 < g.DX := by unfold MeshGenerator.DX; linarith
  have hDY : 0 < g.DY := by unfold MeshGenerator.DY; linarith
  have hgx : 0 < g.gridSpacing_x := by rw [hsx]; exact div_pos hDX hnxq
  have hgy : 0 < g.gridSpacing_y := by rw [hsy]; exact div_pos hDY hnyq
  have htx : g.gridSpacing_x * g.nx = g.DX := by rw [hsx]; field_simp
  have hty : g.gridSpacing_y * g.ny = g.DY := by rw [hsy]; field_simp
  obtain ⟨ax0, ax1, ax2⟩ := axisIndex_inside (n := g.nx) hgx hx0 (by
    rw [htx]; unfold MeshGenerator.DX; linarith)
  obtain ⟨ay0, ay1, ay2⟩ := axisIndex_inside (n := g.ny) hgy hy0 (by
    rw [hty]; unfold MeshGenerator.DY; linarith)
  have fx1 := Int.floor_le ((r.1 - g.X_0) / g.gridSpacing_x)
  have fx2 := Int.lt_floor_add_one ((r.1 - g.X_0) / g.gridSpacing_x)
  have fy1 := Int.floor_le ((r.2 - g.Y_0) / g.gridSpacing_y)
  have fy2 := Int.lt_floor_add_one ((r.2 - g.Y_0) / g.gridSpacing_y)
  rw [le_div_iff₀ hgx] at fx1
  rw [div_lt_iff₀ hgx] at fx2
  rw [le_div_iff₀ hgy] at fy1
  rw [div_lt_iff₀ hgy] at fy2
  have hix : gridIdX g r = ⌊(r.1 - g.X_0) / g.gridSpacing_x⌋ := ax2
  have hiy : gridIdY g r = ⌊(r.2 - g.Y_0) / g.gridSpacing_y⌋ := ay2
  have bx0 : 0 ≤ gridIdX g r := ax0
  have bx1 : gridIdX g r < g.nx := ax1
  have by0 : 0 ≤ gridIdY g r := ay0
  have by1 : gridIdY g r < g.ny := ay1
  refine ⟨rfl, bx0, bx1, by0, by1, ?_, ?_, ?_, ?_, ?_, ?_⟩
  · unfold findGridId
    positivity
  · unfold findGridId
    nlinarith
  · rw [hix]; linarith
  · rw [hix]; linarith
  · rw [hiy]; linarith
  · rw [hiy]; linarith

/-! ## C22: the two copies of the nearest-site search agree -/

theorem adjustAxis_fst (p : Bool) (D x_k y_c : ℚ) :
    (adjustAxis p D x_k y_c).1 = minImage p D x_k := by
  unfold adjustAxis minImage
  split_ifs <;> rfl

theorem sqDist_eq_sqDistRaster (g : MeshGenerator) (y x_k : ℚ × ℚ) :
    sqDist g y x_k = sqDistRaster g y x_k := by
  unfold sqDist sqDistRaster
  rw [adjustAxis_fst, adjustAxis_fst]

theorem visitSiteRaster_toRaster (g : MeshGenerator) (x : Nat → ℚ × ℚ) (y : ℚ × ℚ)
    (st : SearchState) (k : Nat) :
    visitSiteRaster g x y (toRaster st) k = toRaster (visitSite g x y st k) := by
  unfold visitSiteRaster visitSite toRaster
  simp only [sqDist_eq_sqDistRaster]
  split_ifs <;> rfl

theorem foldl_visitSiteRaster_toRaster (g : MeshGenerator) (x : Nat → ℚ × ℚ) (y : ℚ × ℚ)
    (cell : List Nat) (st : SearchState) :
    cell.foldl (visitSiteRaster g x y) (toRaster st)
      = toRaster (cell.foldl (visitSite g x y) st) := by
  induction cell generalizing st with
  | nil => rfl
  | cons k cell ih => rw [List.foldl_cons, List.foldl_cons, visitSiteRaster_toRaster, ih]

theorem foldlM_cells_toRaster (g : MeshGenerator) (x : Nat → ℚ × ℚ) (y : ℚ × ℚ)
    (p : List (List Nat)) (nbs : List Int) (st : SearchState) :
    nbs.foldlM
        (fun st gridNeighbour => do
          let cell ← cellAt p gridNeighbour
          pure (cell.foldl (visitSiteRaster g x y) st))
        (toRaster st)
      = (nbs.foldlM
          (fun st gridNeighbour => do
            let cell ← cellAt p gridNeighbour
            pure (cell.foldl (visitSite g x y) st))
          st).map toRaster := by
  induction nbs generalizing st with
  | nil => rfl
  | cons c nbs ih =>
    rw [List.foldlM_cons, List.foldlM_cons]
    cases hc : cellAt p c with
    | none => rfl
    | some cell =>
      simp only [Option.bind_eq_bind, Option.some_bind, pure]
      rw [foldl_visitSiteRaster_toRaster]
      exact ih _

/-- The search of `save_image_and_xyz` is the search of `createMesh` without `y_tmp`. -/
theorem nearestSiteRaster_eq_map (g : MeshGenerator) (x : Nat → ℚ × ℚ) (p : List (List Nat))
    (nb : List (List Int)) (y : ℚ × ℚ) :
    nearestSiteRaster g x p nb y = (nearestSiteSearch g x p nb y).map toRaster := by
  unfold nearestSiteRaster nearestSiteSearch
  cases hown : cellAt p (findGridId g y) with
  | none =>
    simp only [hown]
    rfl
  | some own =>
    cases hnbs : cellAt nb (findGridId g y) with
    | none =>
      simp only [hown, hnbs]
      rfl
    | some nbs =>
      simp only [hown, hnbs, Option.bind_eq_bind, Option.some_bind]
      have h := foldl_visitSiteRaster_toRaster g x y own
        { maxLen := none, indexMax := -1, y_tmp := y }
      have h0 : toRaster { maxLen := none, indexMax := -1, y_tmp := y }
          = { maxLen := none, indexMax := -1 } := rfl
      rw [h0] at h
      rw [h]
      exact foldlM_cells_toRaster g x y p nbs _

/-- C22: for every query point, site set, grid state and periodicity flags the search in
the relaxation loop of `createMesh` and the search in the rasterisation loop of
`save_image_and_xyz` select the same site index (the same `-1`, the same site among
equidistant ones), and one reads outside the tables exactly when the other does. -/
theorem searches_agree (g : MeshGenerator) (x : Nat → ℚ × ℚ) (p : List (List Nat))
    (nb : List (List Int)) (y : ℚ × ℚ) :
    (nearestSiteSearch g x p nb y).map (fun st => st.indexMax)
      = (nearestSiteRaster g x p nb y).map (fun st => st.indexMax) := by
  rw [nearestSiteRaster_eq_map]
  cases nearestSiteSearch g x p nb y <;> rfl

/-! ## C15: the accumulators are zero between iterations -/

/-- Storing a result keeps every accumulator either untouched at zero or with a positive
hit count. -/
theorem storeResult_zero_or_hit (acc : Nat → ℚ × ℚ × ℚ) (st : SearchState) (i : Nat)
    (h : acc i = (0, 0, 0) ∨ 0 < (acc i).2.2) :
    storeResult acc st i = (0, 0, 0) ∨ 0 < (storeResult acc st i).2.2 := by
  unfold storeResult
  split_ifs with hidx
  · by_cases hi : i = st.indexMax.toNat
    · subst hi
      right
      rw [Function.update_same]
      rcases h with h | h
      · rw [h]; norm_num
      · simp only; linarith
    · rw [Function.update_noteq hi]
      exact h
  · exact h

theorem foldlM_sampleStep_zero_or_hit (g : MeshGenerator) (x : Nat → ℚ × ℚ)
    (p : List (List Nat)) (nb : List (List Int)) (samples : List (ℚ × ℚ))
    (acc acc2 : Nat → ℚ × ℚ × ℚ) (i : Nat)
    (h : acc i = (0, 0, 0) ∨ 0 < (acc i).2.2)
    (hs : samples.foldlM (fun neighbours y_r => sampleStep g x p nb neighbours y_r) acc
      = some acc2) :
    acc2 i = (0, 0, 0) ∨ 0 < (acc2 i).2.2 := by
  induction samples generalizing acc with
  | nil =>
    simp only [List.foldlM_nil, pure, Option.some.injEq] at hs
    rw [← hs]
    exact h
  | cons y samples ih =>
    rw [List.foldlM_cons] at hs
    unfold sampleStep at hs
    cases hst : nearestSiteSearch g x p nb y with
    | none => simp [hst] at hs
    | some st =>
      simp only [hst, Option.map_some', Option.bind_eq_bind, Option.some_bind] at hs
      exact ih (storeResult acc st) (storeResult_zero_or_hit acc st i h) hs

/-- What an iteration that ran to its end has computed. -/
theorem relaxIteration_eq_some (g : MeshGenerator) (w : Weights) (n : Nat)
    (nb : List (List Int)) (s s2 : MeshState) (input : IterationInput)
    (h : relaxIteration g w n nb s input = some s2) :
    ∃ p acc,
      mapParticlesToGrid g n (checkBoundaries g n s.sites.x) s.particlesInGridPoint = some p
      ∧ input.samples.foldlM
          (fun neighbours y_r => sampleStep g
            (input.redistributed.foldl
              (fun x (r : Nat × (ℚ × ℚ)) => Function.update x r.1 r.2)
              (checkBoundaries g n s.sites.x)) p nb neighbours y_r)
          s.sites.neighbours = some acc
      ∧ s2 = { sites := updatePass w n
                 { x := input.redistributed.foldl
                     (fun x (r : Nat × (ℚ × ℚ)) => Function.update x r.1 r.2)
                     (checkBoundaries g n s.sites.x),
                   js := s.sites.js, neighbours := acc }
               particlesInGridPoint := p } := by
  unfold relaxIteration at h
  cases hp : mapParticlesToGrid g n (checkBoundaries g n s.sites.x) s.particlesInGridPoint with
  | none => simp [hp] at h
  | some p =>
    simp only [hp, Option.bind_eq_bind, Option.some_bind] at h
    cases hacc : input.samples.foldlM
          (fun neighbours y_r => sampleStep g
            (input.redistributed.foldl
              (fun x (r : Nat × (ℚ × ℚ)) => Function.update x r.1 r.2)
              (checkBoundaries g n s.sites.x)) p nb neighbours y_r)
          s.sites.neighbours with
    | none => simp [hacc] at h
    | some acc =>
      simp only [hacc, Option.some_bind, pure, Option.some.injEq] at h
      exact ⟨p, acc, rfl, hacc, h.symm⟩

/-- After the update pass the accumulator of a site is zero if it was zero or had a
positive hit count before. -/
theorem updatePass_accumulator_zero (w : Weights) (n : Nat) (s : Sites) (i : Nat)
    (hi : i < n) (h : s.neighbours i = (0, 0, 0) ∨ 0 < (s.neighbours i).2.2) :
    (updatePass w n s).neighbours i = (0, 0, 0) := by
  rw [(updatePass_lt w n s hi).2.2, (updateSite_self w s i).2.2]
  split_ifs with hc
  · rcases h with h | h
    · exact h
    · linarith
  · rfl

/-- One iteration keeps the accumulators of the sites at zero. -/
theorem relaxIteration_zero (g : MeshGenerator) (w : Weights) (n : Nat)
    (nb : List (List Int)) (s s2 : MeshState) (input : IterationInput)
    (h0 : ∀ i, i < n → s.sites.neighbours i = (0, 0, 0))
    (h : relaxIteration g w n nb s input = some s2) :
    ∀ i, i < n → s2.sites.neighbours i = (0, 0, 0) := by
  obtain ⟨p, acc, -, hacc, rfl⟩ := relaxIteration_eq_some g w n nb s s2 input h
  intro i hi
  exact updatePass_accumulator_zero w n _ i hi
    (foldlM_sampleStep_zero_or_hit g _ p nb input.samples _ acc i (Or.inl (h0 i hi)) hacc)

/-- Every state the loop reaches has the accumulators of the sites at zero. -/
theorem relaxationLoop_zero (g : MeshGenerator) (w : Weights) (n : Nat)
    (nb : List (List Int)) (inputs : List IterationInput) (s s2 : MeshState)
    (h0 : ∀ i, i < n → s.sites.neighbours i = (0, 0, 0))
    (h : relaxationLoop g w n nb s inputs = some s2) :
    ∀ i, i < n → s2.sites.neighbours i = (0, 0, 0) := by
  induction inputs generalizing s with
  | nil =>
    simp only [relaxationLoop, List.foldlM_nil, pure, Option.some.injEq] at h
    rw [← h]
    exact h0
  | cons input inputs ih =>
    unfold relaxationLoop at h
    rw [List.foldlM_cons] at h
    cases h1 : relaxIteration g w n nb s input with
    | none => simp [h1] at h
    | some s1 =>
      simp only [h1, Option.bind_eq_bind, Option.some_bind] at h
      exact ih s1 (relaxIteration_zero g w n nb s s1 input h0 h1) h

/-- An iteration runs to its end when, after `checkBoundaries`, every site lies in a cell
and every sample lies in a cell. -/
theorem relaxIteration_some (g : MeshGenerator) (w : Weights) (n : Nat)
    (nb : List (List Int)) (s : MeshState) (input : IterationInput)
    (hwf : WellFormedTables s.particlesInGridPoint nb)
    (hcell : ∀ i, i < n → 0 ≤ findGridId g (checkBoundaries g n s.sites.x i)
      ∧ (findGridId g (checkBoundaries g n s.sites.x i)).toNat
          < s.particlesInGridPoint.length)
    (hsamp : ∀ y ∈ input.samples, 0 ≤ findGridId g y
      ∧ (findGridId g y).toNat < s.particlesInGridPoint.length) :
    ∃ s2, relaxIteration g w n nb s input = some s2 := by
  obtain ⟨p, hp, hpl, -, -⟩ := mapParticlesToGrid_of_valid g n (checkBoundaries g n s.sites.x)
    s.particlesInGridPoint hcell
  obtain ⟨acc, hacc⟩ := foldlM_sampleStep g
    (input.redistributed.foldl (fun x (r : Nat × (ℚ × ℚ)) => Function.update x r.1 r.2)
      (checkBoundaries g n s.sites.x)) p nb
    (wellFormedTables_of_length hwf hpl) input.samples s.sites.neighbours (by
      intro y hy
      rw [hpl]
      exact hsamp y hy)
  refine ⟨{ sites := updatePass w n
              { x := input.redistributed.foldl
                  (fun x (r : Nat × (ℚ × ℚ)) => Function.update x r.1 r.2)
                  (checkBoundaries g n s.sites.x),
                js := s.sites.js, neighbours := acc }
            particlesInGridPoint := p }, ?_⟩
  unfold relaxIteration
  simp only [hp, hacc, Option.bind_eq_bind, Option.some_bind, pure]

/-- C15: if the accumulators of all sites are `(0, 0, 0)` at the start of an iteration (as
they are after the initialisation loop of `createMesh`), then the iteration - which runs
to its end when sites and samples lie in cells - leaves the accumulator of every site at
`(0, 0, 0)` after its update pass, also for the sites without a hit, whose reset the pass
skips; hence they are `(0, 0, 0)` at the start of every iteration the loop reaches. -/
theorem accumulators_zero_between_iterations (g : MeshGenerator) (w : Weights) (n : Nat)
    (nb : List (List Int)) (s : MeshState) (input : IterationInput)
    (h0 : ∀ i, i < n → s.sites.neighbours i = (0, 0, 0))
    (hwf : WellFormedTables s.particlesInGridPoint nb)
    (hcell : ∀ i, i < n → 0 ≤ findGridId g (checkBoundaries g n s.sites.x i)
      ∧ (findGridId g (checkBoundaries g n s.sites.x i)).toNat
          < s.particlesInGridPoint.length)
    (hsamp : ∀ y ∈ input.samples, 0 ≤ findGridId g y
      ∧ (findGridId g y).toNat < s.particlesInGridPoint.length) :
    (∃ s2, relaxIteration g w n nb s input = some s2
        ∧ ∀ i, i < n → s2.sites.neighbours i = (0, 0, 0))
      ∧ ∀ (inputs : List IterationInput) (s3 : MeshState),
          relaxationLoop g w n nb s inputs = some s3 →
          ∀ i, i < n → s3.sites.neighbours i = (0, 0, 0) := by
  constructor
  · obtain ⟨s2, hs2⟩ := relaxIteration_some g w n nb s input hwf hcell hsamp
    exact ⟨s2, hs2, relaxIteration_zero g w n nb s s2 input h0 hs2⟩
  · intro inputs s3 h
    exact relaxationLoop_zero g w n nb inputs s s3 h0 h

/-- An instance of `accumulators_zero_between_iterations`: one site at `(2, 2)` on
`[0, 4] x [0, 4]`, hit by the sample `(2, 2)`. -/
theorem accumulators_zero_between_iterations_witness :
    ∃ s2, relaxIteration squareGrid retainWeights 1 (createDomainGrid squareGrid)
        oneSiteState oneSampleInput = some s2
      ∧ ∀ i, i < 1 → s2.sites.neighbours i = (0, 0, 0) :=
  (accumulators_zero_between_iterations squareGrid retainWeights 1
    (createDomainGrid squareGrid) oneSiteState oneSampleInput
    (fun _ _ => rfl)
    (wellFormedTables_createDomainGrid squareGrid _ (by decide))
    (by
      intro i _
      have hcb : checkBoundaries squareGrid 1 oneSiteState.sites.x i = (2, 2) := by
        simp [checkBoundaries, squareGrid, oneSiteState]
      rw [hcb, findGridId_squareGrid_centre]
      decide)
    (by
      intro y hy
      simp only [oneSampleInput, List.mem_singleton] at hy
      subst hy
      rw [findGridId_squareGrid_centre]
      decide)).1

/-! ## C17: order of insertion and order of the samples -/

theorem mapParticlesToGrid_eq_in (g : MeshGenerator) (n : Nat) (x : Nat → ℚ × ℚ)
    (p : List (List Nat)) :
    mapParticlesToGrid g n x p = mapParticlesToGridIn g x (List.range n) p := rfl

theorem findGridId_squareGrid_tie (i : Nat) : findGridId squareGrid (twoSitesTie.x i) = 0 := by
  by_cases hi : i = 0 <;>
    norm_num [twoSitesTie, hi, findGridId, gridIdX, gridIdY, boundaryCheck, truncToInt,
      squareGrid]

theorem mapParticlesToGridIn_tie :
    mapParticlesToGridIn squareGrid twoSitesTie.x [0, 1] [[]] = some [[0, 1]]
      ∧ mapParticlesToGridIn squareGrid twoSitesTie.x [1, 0] [[]] = some [[1, 0]] := by
  constructor <;>
  · simp only [mapParticlesToGridIn, List.foldlM_cons, List.foldlM_nil,
      findGridId_squareGrid_tie]
    simp [pushSite, pushBack]

theorem nearestSiteSearch_tie :
    nearestSiteSearch squareGrid twoSitesTie.x [[0, 1]] [[]] (2, 2)
        = some { maxLen := some 1, indexMax := 0, y_tmp := (2, 2) }
      ∧ nearestSiteSearch squareGrid twoSitesTie.x [[1, 0]] [[]] (2, 2)
        = some { maxLen := some 1, indexMax := 1, y_tmp := (2, 2) } := by
  constructor <;>
  · unfold nearestSiteSearch
    rw [findGridId_squareGrid_centre]
    norm_num [cellAt, visitSite, belowMaxLen, sqDist, shiftedSample, adjustAxis, squareGrid,
      twoSitesTie]

/-- C17 (counterexample): two sites of one cell at the same distance from the sample
`(2, 2)`. Inserted in the order 0, 1 the sample goes to site 0, which moves to `(3/2, 2)`
and gets exposure count 2; inserted in the order 1, 0 the sample goes to site 1, and site
0 stays at `(1, 2)` with exposure count 1. -/
theorem iterationIn_insertion_order :
    (iterationIn squareGrid pullWeights 2 (createDomainGrid squareGrid) twoSitesTie [[]]
        [0, 1] [(2, 2)]).map (fun s => (s.x 0, s.js 0)) = some ((3 / 2, 2), 2)
      ∧ (iterationIn squareGrid pullWeights 2 (createDomainGrid squareGrid) twoSitesTie [[]]
        [1, 0] [(2, 2)]).map (fun s => (s.x 0, s.js 0)) = some ((1, 2), 1) := by
  have hgrid : createDomainGrid squareGrid = [[]] := by decide
  constructor
  · simp only [iterationIn, hgrid, mapParticlesToGridIn_tie.1, Option.bind_eq_bind,
      Option.some_bind, List.foldlM_cons, List.foldlM_nil, sampleStep,
      nearestSiteSearch_tie.1, Option.map_some', pure]
    rw [(updatePass_lt _ _ _ (show 0 < 2 by decide)).1,
      (updatePass_lt _ _ _ (show 0 < 2 by decide)).2.1,
      (updateSite_self _ _ _).1, (updateSite_self _ _ _).2.1]
    norm_num [storeResult, blendedPosition, pullWeights, twoSitesTie]
  · simp only [iterationIn, hgrid, mapParticlesToGridIn_tie.2, Option.bind_eq_bind,
      Option.some_bind, List.foldlM_cons, List.foldlM_nil, sampleStep,
      nearestSiteSearch_tie.2, Option.map_some', pure]
    rw [(updatePass_lt _ _ _ (show 0 < 2 by decide)).1,
      (updatePass_lt _ _ _ (show 0 < 2 by decide)).2.1,
      (updateSite_self _ _ _).1, (updateSite_self _ _ _).2.1]
    norm_num [storeResult, blendedPosition, pullWeights, twoSitesTie]

/-! ### Without ties the orders do not matter -/

/-- The table built from an insertion order: the list of cell `c` holds the sites of the
order that lie in `c`. -/
theorem mapParticlesToGridIn_of_valid (g : MeshGenerator) (x : Nat → ℚ × ℚ)
    (order : List Nat) (p : List (List Nat))
    (h : ∀ i ∈ order, 0 ≤ findGridId g (x i) ∧ (findGridId g (x i)).toNat < p.length) :
    ∃ t, mapParticlesToGridIn g x order p = some t
      ∧ t.length = p.length
      ∧ ∀ c : Nat, c < p.length →
          t[c]? = some (order.filter (fun i => findGridId g (x i) = c)) := by
  obtain ⟨t, ht, htl, htc, -⟩ := foldlM_pushSite (fun i => findGridId g (x i)) order
    (p.map (fun _ => [])) (by
      intro i hi
      rw [List.length_map]
      exact h i hi)
  refine ⟨t, ht, by rw [htl, List.length_map], ?_⟩
  intro c hc
  rw [htc c, List.getElem?_map, List.getElem?_eq_getElem hc]
  simp

/-- Tables built from two orders with the same sites have the same members in every
cell. -/
theorem cellAt_members_of_perm (g : MeshGenerator) (x : Nat → ℚ × ℚ) (o1 o2 : List Nat)
    (hperm : o1.Perm o2) (len : Nat) (t1 t2 : List (List Nat))
    (hl1 : t1.length = len)
    (h1 : ∀ c : Nat, c < len → t1[c]? = some (o1.filter (fun i => findGridId g (x i) = c)))
    (h2 : ∀ c : Nat, c < len → t2[c]? = some (o2.filter (fun i => findGridId g (x i) = c)))
    (c : Int) (l1 : List Nat) (hc : cellAt t1 c = some l1) :
    (∀ k ∈ l1, k ∈ o1) ∧ ∃ l2, cellAt t2 c = some l2 ∧ ∀ k, k ∈ l1 ↔ k ∈ l2 := by
  unfold cellAt at hc ⊢
  split_ifs at hc with hc0
  have hlt : c.toNat < len := by
    rw [← hl1]
    exact (List.getElem?_eq_some_iff.1 hc).1
  rw [h1 _ hlt] at hc
  cases hc
  refine ⟨fun k hk => (List.mem_filter.1 hk).1, _, by rw [if_pos hc0]; exact h2 _ hlt, ?_⟩
  intro k
  rw [List.mem_filter, List.mem_filter, hperm.mem_iff]

/-- The search gives the same result on two membership tables with the same members in
every cell, when no two of the stored sites are at the same distance from the sample. -/
theorem nearestSiteSearch_congr (g : MeshGenerator) (x : Nat → ℚ × ℚ)
    (t1 t2 : List (List Nat)) (nb : List (List Int)) (y : ℚ × ℚ)
    (hwf : WellFormedTables t1 nb)
    (h0 : 0 ≤ findGridId g y) (h1 : (findGridId g y).toNat < t1.length)
    (hmem : ∀ (c : Int) (l1 : List Nat), cellAt t1 c = some l1 →
      ∃ l2, cellAt t2 c = some l2 ∧ ∀ k, k ∈ l1 ↔ k ∈ l2)
    (hties : ∀ l ∈ t1, ∀ l2 ∈ t1, ∀ k ∈ l, ∀ k2 ∈ l2,
      sqDist g y (x k) = sqDist g y (x k2) → k = k2) :
    nearestSiteSearch g x t1 nb y = nearestSiteSearch g x t2 nb y := by
  obtain ⟨own1, nbs, hown1, hnbs, hval1⟩ := tables_readable hwf h0 h1
  obtain ⟨own2, hown2, hownmem⟩ := hmem _ _ hown1
  have hval2 : ∀ c ∈ nbs, ∃ l, cellAt t2 c = some l := by
    intro c hc
    obtain ⟨l, hl⟩ := hval1 c hc
    obtain ⟨l2, hl2, -⟩ := hmem _ _ hl
    exact ⟨l2, hl2⟩
  have hcand : ∀ k, k ∈ candidateSites t1 own1 nbs ↔ k ∈ candidateSites t2 own2 nbs := by
    intro k
    rw [mem_candidateSites hval1, mem_candidateSites hval2]
    constructor
    · rintro (hk | ⟨c, hc, l, hl, hk⟩)
      · exact Or.inl ((hownmem k).1 hk)
      · obtain ⟨l2, hl2, hm⟩ := hmem _ _ hl
        exact Or.inr ⟨c, hc, l2, hl2, (hm k).1 hk⟩
    · rintro (hk | ⟨c, hc, l2, hl2, hk⟩)
      · exact Or.inl ((hownmem k).2 hk)
      · obtain ⟨l, hl⟩ := hval1 c hc
        obtain ⟨l3, hl3, hm⟩ := hmem _ _ hl
        rw [hl2] at hl3
        cases hl3
        exact Or.inr ⟨c, hc, l, hl, (hm k).2 hk⟩
  have hin : ∀ k, k ∈ candidateSites t1 own1 nbs → ∃ l ∈ t1, k ∈ l := by
    intro k hk
    rcases (mem_candidateSites hval1).1 hk with hk | ⟨c, -, l, hl, hk⟩
    · exact ⟨own1, mem_of_cellAt hown1, hk⟩
    · exact ⟨l, mem_of_cellAt hl, hk⟩
  rcases nearestSiteSearch_result g x t1 nb y hown1 hnbs hval1 with
    ⟨hnil1, hst1⟩ | ⟨k1, hk1, hst1, hmin1⟩ <;>
  rcases nearestSiteSearch_result g x t2 nb y hown2 hnbs hval2 with
    ⟨hnil2, hst2⟩ | ⟨k2, hk2, hst2, hmin2⟩
  · rw [hst1, hst2]
  · have := (hcand k2).2 hk2
    rw [hnil1] at this
    exact absurd this (List.not_mem_nil k2)
  · have := (hcand k1).1 hk1
    rw [hnil2] at this
    exact absurd this (List.not_mem_nil k1)
  · have hk21 : k2 ∈ candidateSites t1 own1 nbs := (hcand k2).2 hk2
    have hd : sqDist g y (x k1) = sqDist g y (x k2) :=
      le_antisymm (hmin1 k2 hk21) (hmin2 k1 ((hcand k1).1 hk1))
    obtain ⟨l, hl, hkl⟩ := hin k1 hk1
    obtain ⟨l2, hl2, hkl2⟩ := hin k2 hk21
    have hk : k1 = k2 := hties l hl l2 hl2 k1 hkl k2 hkl2 hd
    rw [hst1, hst2, hk]

theorem foldlM_congr_mem {α β : Type} (f f2 : β → α → Option β) (l : List α) (b : β)
    (h : ∀ a ∈ l, ∀ b, f b a = f2 b a) : l.foldlM f b = l.foldlM f2 b := by
  induction l generalizing b with
  | nil => rfl
  | cons a l ih =>
    rw [List.foldlM_cons, List.foldlM_cons, h a (List.mem_cons_self _ _) b]
    cases f2 b a with
    | none => rfl
    | some b2 => exact ih b2 (fun a2 ha2 => h a2 (List.mem_cons_of_mem _ ha2))

/-- The value of an accumulator after a result was stored. -/
theorem storeResult_apply (acc : Nat → ℚ × ℚ × ℚ) (st : SearchState) (i : Nat) :
    storeResult acc st i
      = if st.indexMax ≥ 0 ∧ i = st.indexMax.toNat then
          ((acc i).1 + st.y_tmp.1, (acc i).2.1 + st.y_tmp.2, (acc i).2.2 + 1)
        else acc i := by
  unfold storeResult
  by_cases h : st.indexMax ≥ 0
  · by_cases hi : i = st.indexMax.toNat
    · subst hi
      simp [h]
    · simp [h, hi, Function.update_noteq hi]
  · simp [h]

/-- Storing two results in either order gives the same accumulators. -/
theorem storeResult_comm (acc : Nat → ℚ × ℚ × ℚ) (a b : SearchState) :
    storeResult (storeResult acc a) b = storeResult (storeResult acc b) a := by
  funext i
  simp only [storeResult_apply]
  split_ifs <;> first
    | rfl
    | (refine Prod.ext ?_ (Prod.ext ?_ ?_) <;> simp only [] <;> ring)

/-- The sampling pass over samples that lie in cells is a plain fold of `storeResult`. -/
theorem foldlM_sampleStep_eq_foldl (g : MeshGenerator) (x : Nat → ℚ × ℚ)
    (p : List (List Nat)) (nb : List (List Int)) (hwf : WellFormedTables p nb)
    (samples : List (ℚ × ℚ)) (neighbours : Nat → ℚ × ℚ × ℚ)
    (h : ∀ y ∈ samples, 0 ≤ findGridId g y ∧ (findGridId g y).toNat < p.length) :
    samples.foldlM (fun neighbours y_r => sampleStep g x p nb neighbours y_r) neighbours
      = some (samples.foldl
          (fun neighbours y_r => storeResult neighbours
            ((nearestSiteSearch g x p nb y_r).getD
              { maxLen := none, indexMax := -1, y_tmp := y_r }))
          neighbours) := by
  induction samples generalizing neighbours with
  | nil => rfl
  | cons y samples ih =>
    obtain ⟨h0, h1⟩ := h y (List.mem_cons_self _ _)
    obtain ⟨own, nbs, hown, hnbs, hval⟩ := tables_readable hwf h0 h1
    have hsome : ∃ st, nearestSiteSearch g x p nb y = some st := by
      rcases nearestSiteSearch_result g x p nb y hown hnbs hval with
        ⟨-, hst⟩ | ⟨k, -, hst, -⟩
      · exact ⟨_, hst⟩
      · exact ⟨_, hst⟩
    obtain ⟨st, hst⟩ := hsome
    rw [List.foldlM_cons, List.foldl_cons]
    simp only [sampleStep, hst, Option.map_some', Option.bind_eq_bind, Option.some_bind,
      Option.getD_some]
    exact ih _ (fun z hz => h z (List.mem_cons_of_mem _ hz))

/-- C17 (amended): for two insertion orders with the same sites and two orders of the same
samples, when the sites and samples lie in cells and no sample is at the same squared
minimum-image distance from two different sites, one iteration (grid rebuild, sampling
pass, update pass) runs to its end for both orders and gives the same sites (positions,
exposure counts and accumulators). -/
theorem iterationIn_order_independent (g : MeshGenerator) (w : Weights) (n : Nat)
    (nb : List (List Int)) (s : Sites) (p0 : List (List Nat)) (order1 order2 : List Nat)
    (samples1 samples2 : List (ℚ × ℚ))
    (horder : order1.Perm order2) (hsamples : samples1.Perm samples2)
    (hwf : WellFormedTables p0 nb)
    (hcell : ∀ i ∈ order1, 0 ≤ findGridId g (s.x i)
      ∧ (findGridId g (s.x i)).toNat < p0.length)
    (hsamp : ∀ y ∈ samples1, 0 ≤ findGridId g y ∧ (findGridId g y).toNat < p0.length)
    (hties : ∀ y ∈ samples1, ∀ k ∈ order1, ∀ k2 ∈ order1,
      sqDist g y (s.x k) = sqDist g y (s.x k2) → k = k2) :
    ∃ r, iterationIn g w n nb s p0 order1 samples1 = some r
      ∧ iterationIn g w n nb s p0 order2 samples2 = some r := by
  obtain ⟨t1, ht1, hl1, hc1⟩ := mapParticlesToGridIn_of_valid g s.x order1 p0 hcell
  obtain ⟨t2, ht2, hl2, hc2⟩ := mapParticlesToGridIn_of_valid g s.x order2 p0
    (fun i hi => hcell i (horder.mem_iff.2 hi))
  have hwf1 : WellFormedTables t1 nb := wellFormedTables_of_length hwf hl1
  have hwf2 : WellFormedTables t2 nb := wellFormedTables_of_length hwf hl2
  have hsamp1 : ∀ y ∈ samples1, 0 ≤ findGridId g y ∧ (findGridId g y).toNat < t1.length := by
    intro y hy
    rw [hl1]
    exact hsamp y hy
  have hsamp2 : ∀ y ∈ samples2, 0 ≤ findGridId g y ∧ (findGridId g y).toNat < t2.length := by
    intro y hy
    rw [hl2]
    exact hsamp y (hsamples.mem_iff.2 hy)
  have hsearch : ∀ y ∈ samples1,
      nearestSiteSearch g s.x t1 nb y = nearestSiteSearch g s.x t2 nb y := by
    intro y hy
    refine nearestSiteSearch_congr g s.x t1 t2 nb y hwf1 (hsamp1 y hy).1
      (hsamp1 y hy).2 ?_ ?_
    · intro c l1 hcl
      exact (cellAt_members_of_perm g s.x order1 order2 horder p0.length t1 t2 hl1 hc1 hc2
        c l1 hcl).2
    · intro l hl l2 hl2m k hk k2 hk2 hd
      obtain ⟨c, hc⟩ := List.mem_iff_getElem?.1 hl
      obtain ⟨c2, hc2m⟩ := List.mem_iff_getElem?.1 hl2m
      have hlt : c < p0.length := by
        rw [← hl1]
        exact (List.getElem?_eq_some_iff.1 hc).1
      have hlt2 : c2 < p0.length := by
        rw [← hl1]
        exact (List.getElem?_eq_some_iff.1 hc2m).1
      rw [hc1 c hlt] at hc
      rw [hc1 c2 hlt2] at hc2m
      cases hc
      cases hc2m
      exact hties y hy k (List.mem_filter.1 hk).1 k2 (List.mem_filter.1 hk2).1 hd
  have hfold1 := foldlM_sampleStep_eq_foldl g s.x t1 nb hwf1 samples1 s.neighbours hsamp1
  have hfold2 := foldlM_sampleStep_eq_foldl g s.x t2 nb hwf2 samples2 s.neighbours hsamp2
  have heq : samples1.foldl
        (fun neighbours y_r => storeResult neighbours
          ((nearestSiteSearch g s.x t1 nb y_r).getD
            { maxLen := none, indexMax := -1, y_tmp := y_r })) s.neighbours
      = samples2.foldl
        (fun neighbours y_r => storeResult neighbours
          ((nearestSiteSearch g s.x t2 nb y_r).getD
            { maxLen := none, indexMax := -1, y_tmp := y_r })) s.neighbours := by
    have hstep : samples1.foldl
          (fun neighbours y_r => storeResult neighbours
            ((nearestSiteSearch g s.x t1 nb y_r).getD
              { maxLen := none, indexMax := -1, y_tmp := y_r })) s.neighbours
        = samples1.foldl
          (fun neighbours y_r => storeResult neighbours
            ((nearestSiteSearch g s.x t2 nb y_r).getD
              { maxLen := none, indexMax := -1, y_tmp := y_r })) s.neighbours := by
      apply List.foldl_ext
      intro acc y hy
      rw [hsearch y hy]
    rw [hstep]
    exact hsamples.foldl_eq' (fun a _ b _ acc => storeResult_comm acc _ _) s.neighbours
  obtain ⟨acc, hacc1, hacc2⟩ : ∃ acc,
      samples1.foldlM (fun neighbours y_r => sampleStep g s.x t1 nb neighbours y_r)
          s.neighbours = some acc
      ∧ samples2.foldlM (fun neighbours y_r => sampleStep g s.x t2 nb neighbours y_r)
          s.neighbours = some acc := ⟨_, hfold1.trans (congrArg some heq), hfold2⟩
  have e1 : iterationIn g w n nb s p0 order1 samples1
      = some (updatePass w n { x := s.x, js := s.js, neighbours := acc }) := by
    unfold iterationIn
    simp only [ht1, hacc1, Option.bind_eq_bind, Option.some_bind, pure]
  have e2 : iterationIn g w n nb s p0 order2 samples2
      = some (updatePass w n { x := s.x, js := s.js, neighbours := acc }) := by
    unfold iterationIn
    simp only [ht2, hacc2, Option.bind_eq_bind, Option.some_bind, pure]
  exact ⟨_, e1, e2⟩

theorem iterationIn_order_independent_witness :
    ∃ r, iterationIn squareGrid pullWeights 2 (createDomainGrid squareGrid) twoSitesTie [[]]
          [0, 1] [(1, 2), (3, 3)] = some r
      ∧ iterationIn squareGrid pullWeights 2 (createDomainGrid squareGrid) twoSitesTie [[]]
          [1, 0] [(3, 3), (1, 2)] = some r := by
  have hcellOf : ∀ y ∈ [((1 : ℚ), (2 : ℚ)), (3, 3)], findGridId squareGrid y = 0 := by
    intro y hy
    simp only [List.mem_cons, List.mem_singleton, List.not_mem_nil, or_false] at hy
    rcases hy with rfl | rfl <;>
      norm_num [findGridId, gridIdX, gridIdY, boundaryCheck, truncToInt, squareGrid]
  refine iterationIn_order_independent squareGrid pullWeights 2 (createDomainGrid squareGrid)
    twoSitesTie [[]] [0, 1] [1, 0] [(1, 2), (3, 3)] [(3, 3), (1, 2)]
    (List.Perm.swap 1 0 []) (List.Perm.swap (3, 3) (1, 2) [])
    (wellFormedTables_createDomainGrid squareGrid [[]] rfl) ?_ ?_ ?_
  · intro i _
    rw [findGridId_squareGrid_tie]
    exact ⟨le_refl 0, by decide⟩
  · intro y hy
    rw [hcellOf y hy]
    exact ⟨le_refl 0, by decide⟩
  · intro y hy k hk k2 hk2
    simp only [List.mem_cons, List.mem_singleton, List.not_mem_nil, or_false] at hy hk hk2
    rcases hy with rfl | rfl <;> rcases hk with rfl | rfl <;> rcases hk2 with rfl | rfl <;>
      norm_num [sqDist, shiftedSample, adjustAxis, squareGrid, twoSitesTie]

/-! ## The analysis grid and the radial distribution -/

theorem divInt_zero (a : ℚ) : divInt a 0 = none := rfl

theorem divInt_of_ne (a : ℚ) {k : Int} (h : k ≠ 0) : divInt a k = some (a / k) := by
  unfold divInt
  rw [if_neg h]

/-- The steps of `setDomainSize`, one value at a time. -/
theorem setDomainSize_eq (n : Nat) (DX DY spacing : ℚ) (nx0 nx ny : Int)
    (h0 : truncSqrtTimes (n / (DX * DY)) DX = nx0)
    (hx : floorQuot DX (divInt (spacing * DX) nx0) = nx)
    (hy : floorQuot DY (divInt (spacing * DX) nx0) = ny) :
    setDomainSize n DX DY spacing
      = { nx := if nx = 0 then 1 else nx, ny := if ny = 0 then 1 else ny,
          gridSpacing_x := divInt DX nx, gridSpacing_y := divInt DY ny } := by
  subst h0 hx hy
  rfl

/-- C19 (evaluation at the failing input): one site on the unit square with the multiplier
2.01 of `build`. The first pass gives `nx = floor(1 / 2.01) = 0`, the cell sizes are
`DX / 0` and `DY / 0`, and only afterwards are `nx` and `ny` set to 1: the cell sizes
stay infinite. -/
theorem setDomainSize_one_site :
    setDomainSize 1 1 1 (201 / 100)
      = { nx := 1, ny := 1, gridSpacing_x := none, gridSpacing_y := none } := by
  have h0 : truncSqrtTimes ((1 : Nat) / (1 * 1)) 1 = 1 := by
    norm_num [truncSqrtTimes]
  have hx : floorQuot 1 (divInt (201 / 100 * 1) 1) = 0 := by
    rw [divInt_of_ne _ one_ne_zero]
    show ⌊(1 : ℚ) / (201 / 100 * 1 / ((1 : Int) : ℚ))⌋ = 0
    rw [Int.floor_eq_iff]
    norm_num
  rw [setDomainSize_eq 1 1 1 (201 / 100) 1 0 0 h0 hx hx]
  rfl

/-- Where the first pass of `setDomainSize` gives `nx ≠ 0`, the cells tile the axis. -/
theorem divInt_tiles (DX : ℚ) {nx : Int} (h : nx ≠ 0) :
    ∃ s, divInt DX nx = some s ∧ (nx : ℚ) * s = DX := by
  refine ⟨DX / nx, divInt_of_ne DX h, ?_⟩
  have : (nx : ℚ) ≠ 0 := Int.cast_ne_zero.2 h
  field_simp

/-! ### The peak loop -/

theorem getD_replicate_zero (k i : Nat) : (List.replicate k (0 : Int)).getD i 0 = 0 := by
  rw [List.getD_eq_getElem?_getD, List.getElem?_replicate]
  split_ifs <;> rfl

theorem normalizedDensity_replicate_zero (h : ℚ) (k i : Nat) :
    normalizedDensity h (List.replicate k 0) i = 0 := by
  unfold normalizedDensity
  simp only [getD_replicate_zero, Int.cast_zero, zero_div]

/-- The peak loop leaves `maxIndex = -1` when no bin it looks at has a positive density. -/
theorem foldl_peakStep_of_zero (h : ℚ) (histogram : List Int) (l : List Nat)
    (hz : ∀ i ∈ l, normalizedDensity h histogram i = 0) :
    l.foldl (peakStep h histogram) { maxIndex := -1, maxValue := 0 }
      = { maxIndex := -1, maxValue := 0 } := by
  induction l with
  | nil => rfl
  | cons i l ih =>
    rw [List.foldl_cons]
    have hstep : peakStep h histogram { maxIndex := -1, maxValue := 0 } i
        = { maxIndex := -1, maxValue := 0 } := by
      unfold peakStep
      rw [hz i (List.mem_cons_self _ _)]
      simp
    rw [hstep]
    exact ih (fun j hj => hz j (List.mem_cons_of_mem _ hj))

/-- C13 (evaluation at the failing input): a histogram without counts, as one site alone
gives it. For every bin width `h` the peak loop ends with `maxIndex = -1` and the value
returned is `(-1 + 1/2) * h = -(h / 2)`, not the centre of a bin `1 .. nBins - 1`, and
negative for a positive bin width. -/
theorem optimalGridSpacing_empty_histogram (h : ℚ) :
    (findPeak h (List.replicate nBins 0)).maxIndex = -1
      ∧ optimalGridSpacing h (List.replicate nBins 0) = -(h / 2) := by
  have hp : findPeak h (List.replicate nBins 0) = { maxIndex := -1, maxValue := 0 } :=
    foldl_peakStep_of_zero h _ _ (fun i _ => normalizedDensity_replicate_zero h nBins i)
  refine ⟨by rw [hp], ?_⟩
  unfold optimalGridSpacing
  rw [hp]
  simp only [Int.reduceNeg, Int.cast_neg, Int.cast_one]
  ring

/-! ### The histogram -/

theorem length_incrementAt (l : List Int) (c : Nat) : (incrementAt l c).length = l.length := by
  induction l generalizing c with
  | nil => rfl
  | cons a t ih =>
    cases c with
    | zero => rfl
    | succ c => simp only [incrementAt, List.length_cons, ih]

theorem sum_incrementAt (l : List Int) (c : Nat) (hc : c < l.length) :
    (incrementAt l c).sum = l.sum + 1 := by
  induction l generalizing c with
  | nil => simp at hc
  | cons a t ih =>
    cases c with
    | zero =>
      simp only [incrementAt, List.sum_cons]
      ring
    | succ c =>
      simp only [incrementAt, List.sum_cons]
      rw [ih c (by simpa using hc)]
      ring

theorem getD_incrementAt (l : List Int) (c j : Nat) (hc : c < l.length) :
    (incrementAt l c).getD j 0 = if j = c then l.getD j 0 + 1 else l.getD j 0 := by
  induction l generalizing c j with
  | nil => simp at hc
  | cons a t ih =>
    cases c with
    | zero =>
      cases j with
      | zero => simp [incrementAt]
      | succ j => simp [incrementAt]
    | succ c =>
      cases j with
      | zero => simp [incrementAt]
      | succ j =>
        simp only [incrementAt, List.getD_cons_succ, Nat.succ_inj']
        exact ih c j (by simpa using hc)

theorem incrementBin_of_lt (histogram : List Int) (c : Nat) (hc : c < histogram.length) :
    incrementBin histogram (c : Int) = some (incrementAt histogram c) := by
  unfold incrementBin
  rw [if_pos ⟨Int.natCast_nonneg c, by simpa using hc⟩, Int.toNat_natCast]

theorem incrementBin_of_ge (histogram : List Int) (c : Nat) (hc : histogram.length ≤ c) :
    incrementBin histogram (c : Int) = none := by
  unfold incrementBin
  rw [if_neg]
  rintro ⟨-, h⟩
  rw [Int.toNat_natCast] at h
  omega

/-- The value of `histogramBin`, from the two squares that enclose the quotient. -/
theorem histogramBin_eq (d2 histSpacing : ℚ) (q b : Nat)
    (hq : ⌊d2 / (histSpacing * histSpacing)⌋ = (q : Int))
    (hb : b * b ≤ q ∧ q < (b + 1) * (b + 1)) : histogramBin d2 histSpacing = (b : Int) := by
  unfold histogramBin
  rw [hq, Int.toNat_natCast, ← Nat.eq_sqrt.2 hb]

/-! ### C16: a pair counted twice -/

theorem createDomainGrid_ringGrid : createDomainGrid ringGrid = [[1, 1], [0, 0]] := by
  decide

theorem findGridId_ringSites :
    findGridId ringGrid (ringSites 0) = 0 ∧ findGridId ringGrid (ringSites 1) = 1 := by
  constructor <;>
    norm_num [ringSites, findGridId, gridIdX, gridIdY, boundaryCheck, truncToInt, ringGrid]

theorem mapParticlesToGrid_ringSites :
    mapParticlesToGrid ringGrid 2 ringSites (List.replicate 2 []) = some [[0], [1]] := by
  have hr : List.range 2 = [0, 1] := by decide
  simp only [mapParticlesToGrid, hr, List.foldlM_cons, List.foldlM_nil,
    findGridId_ringSites.1, findGridId_ringSites.2]
  simp [pushSite, pushBack]

/-- Both sites of `ringSites` are at distance 1 from each other, inside the cutoff `8/5`,
and the distance falls into bin 187. -/
theorem histogramStep_ringSites (histogram : List Int) (hl : 187 < histogram.length)
    (i k : Nat) (hik : (i = 0 ∧ k = 1) ∨ (i = 1 ∧ k = 0)) :
    histogramStep ringGrid ringSites (16 / 10 * ringGrid.gridSpacing_x)
        (16 / 10 * ringGrid.gridSpacing_x / nBins) (ringSites i) histogram k
      = some (incrementAt histogram 187) := by
  have hd : sqDistRaster ringGrid (ringSites i) (ringSites k) = 1 := by
    rcases hik with ⟨rfl, rfl⟩ | ⟨rfl, rfl⟩ <;>
      norm_num [sqDistRaster, minImage, ringSites, ringGrid, MeshGenerator.DX,
        MeshGenerator.DY]
  have hbin : histogramBin 1 (16 / 10 * ringGrid.gridSpacing_x / nBins) = (187 : Nat) := by
    refine histogramBin_eq _ _ 35156 187 ?_ (by decide)
    rw [Int.floor_eq_iff]
    norm_num [ringGrid, nBins]
  unfold histogramStep
  simp only [hd, hbin]
  have hcut : beyondCutoff 1 (16 / 10 * ringGrid.gridSpacing_x) = false := by
    norm_num [beyondCutoff, ringGrid]
  rw [hcut]
  exact incrementBin_of_lt histogram 187 hl

/-- The two loops of `pairCountSite`, once the lists of the own cell are read. -/
theorem pairCountSite_eq (g : MeshGenerator) (x : Nat → ℚ × ℚ) (p : List (List Nat))
    (nb : List (List Int)) (maxLength histSpacing : ℚ) (histogram : List Int) (i : Nat)
    (own : List Nat) (nbs : List Int) (hown : cellAt p (findGridId g (x i)) = some own)
    (hnbs : cellAt nb (findGridId g (x i)) = some nbs) :
    pairCountSite g x p nb maxLength histSpacing histogram i
      = (own.foldlM
          (fun h k =>
            if k = i then some h else histogramStep g x maxLength histSpacing (x i) h k)
          histogram).bind
        (fun h1 => nbs.foldlM
          (fun h c => (cellAt p c).bind
            (fun cell => cell.foldlM (histogramStep g x maxLength histSpacing (x i)) h))
          h1) := by
  unfold pairCountSite
  simp only [hown, hnbs, Option.bind_eq_bind, Option.some_bind]

/-- The loop over the own cell when it holds the site `i` alone. -/
theorem foldlM_own_single (step : List Int → Nat → Option (List Int)) (histogram : List Int)
    (i : Nat) :
    [i].foldlM (fun h k => if k = i then some h else step h k) histogram = some histogram := by
  rw [List.foldlM_cons, if_pos rfl, Option.bind_eq_bind, Option.some_bind, List.foldlM_nil]
  rfl

/-- The loop over the neighbour list `[c, c]` when the cell `c` holds the site `k` alone:
the site `k` is visited twice. -/
theorem foldlM_cell_twice (p : List (List Nat)) (c : Int) (k : Nat)
    (step : List Int → Nat → Option (List Int)) (h0 h1 h2 : List Int)
    (hc : cellAt p c = some [k]) (s1 : step h0 k = some h1) (s2 : step h1 k = some h2) :
    [c, c].foldlM (fun h c => (cellAt p c).bind (fun cell => cell.foldlM step h)) h0
      = some h2 := by
  have hcell : ∀ a b, step a k = some b → [k].foldlM step a = some b := by
    intro a b hab
    rw [List.foldlM_cons, hab, Option.bind_eq_bind, Option.some_bind, List.foldlM_nil]
    rfl
  rw [List.foldlM_cons, hc, Option.some_bind, hcell h0 h1 s1, Option.bind_eq_bind,
    Option.some_bind, List.foldlM_cons, hc, Option.some_bind, hcell h1 h2 s2,
    Option.bind_eq_bind, Option.some_bind, List.foldlM_nil]
  rfl

/-- The histogram after the pass of site `i` over the cells of `ringGrid`: the one site of
the other cell is visited twice. -/
theorem pairCountSite_ringSites (histogram : List Int) (hl : 187 < histogram.length)
    (i : Nat) (hi : i = 0 ∨ i = 1) :
    pairCountSite ringGrid ringSites [[0], [1]] [[1, 1], [0, 0]]
        (16 / 10 * ringGrid.gridSpacing_x) (16 / 10 * ringGrid.gridSpacing_x / nBins)
        histogram i
      = some (incrementAt (incrementAt histogram 187) 187) := by
  have hl1 : 187 < (incrementAt histogram 187).length := by
    rw [length_incrementAt]
    exact hl
  rcases hi with rfl | rfl
  · rw [pairCountSite_eq ringGrid ringSites _ _ _ _ histogram 0 [0] [1, 1]
      (by rw [findGridId_ringSites.1]; rfl) (by rw [findGridId_ringSites.1]; rfl),
      foldlM_own_single, Option.some_bind]
    exact foldlM_cell_twice _ 1 1 _ _ _ _ rfl
      (histogramStep_ringSites _ hl 0 1 (Or.inl ⟨rfl, rfl⟩))
      (histogramStep_ringSites _ hl1 0 1 (Or.inl ⟨rfl, rfl⟩))
  · rw [pairCountSite_eq ringGrid ringSites _ _ _ _ histogram 1 [1] [0, 0]
      (by rw [findGridId_ringSites.2]; rfl) (by rw [findGridId_ringSites.2]; rfl),
      foldlM_own_single, Option.some_bind]
    exact foldlM_cell_twice _ 0 0 _ _ _ _ rfl
      (histogramStep_ringSites _ hl 1 0 (Or.inr ⟨rfl, rfl⟩))
      (histogramStep_ringSites _ hl1 1 0 (Or.inr ⟨rfl, rfl⟩))

theorem length_replicate_nBins : 187 < (List.replicate nBins (0 : Int)).length := by
  rw [List.length_replicate]
  norm_num [nBins]

/-- C16 (evaluation at the failing input): two sites, one in each cell of a grid of 2 x 1
cells that is periodic in `x`. The neighbour list of either cell names the other cell
twice, so each of the two ordered pairs is counted twice: bin 187 ends with the count 4,
and the histogram holds 4 counts for 2 ordered pairs. -/
theorem radialHistogram_ringSites :
    mapParticlesToGrid ringGrid 2 ringSites (List.replicate 2 []) = some [[0], [1]]
      ∧ createDomainGrid ringGrid = [[1, 1], [0, 0]]
      ∧ (radialHistogram ringGrid 2 ringSites [[0], [1]] (createDomainGrid ringGrid)).map
          (fun histogram => (histogram.getD 187 0, histogram.sum)) = some (4, 4) := by
  refine ⟨mapParticlesToGrid_ringSites, createDomainGrid_ringGrid, ?_⟩
  have hr : List.range 2 = [0, 1] := by decide
  have hl0 := length_replicate_nBins
  have hl1 := hl0
  rw [← length_incrementAt _ 187] at hl1
  have hl2 := hl1
  rw [← length_incrementAt _ 187] at hl2
  have hl3 := hl2
  rw [← length_incrementAt _ 187] at hl3
  unfold radialHistogram
  rw [createDomainGrid_ringGrid, hr]
  rw [List.foldlM_cons, pairCountSite_ringSites _ hl0 0 (Or.inl rfl), Option.bind_eq_bind,
    Option.some_bind, List.foldlM_cons, pairCountSite_ringSites _ hl2 1 (Or.inr rfl),
    Option.bind_eq_bind, Option.some_bind, List.foldlM_nil]
  show Option.map _ (some _) = _
  rw [Option.map_some']
  rw [getD_incrementAt _ _ _ hl3, getD_incrementAt _ _ _ hl2, getD_incrementAt _ _ _ hl1,
    getD_incrementAt _ _ _ hl0, sum_incrementAt _ _ hl3, sum_incrementAt _ _ hl2,
    sum_incrementAt _ _ hl1, sum_incrementAt _ _ hl0, getD_replicate_zero,
    List.sum_replicate]
  simp only [if_true, smul_zero, zero_add]
  rfl

/-! ### C23: a distance equal to the cutoff -/

/-- C23 (evaluation at the failing input): two sites at distance `4/5` on the grid of
2 x 2 cells of size `1/2`, where `maxLength = 1.6 * 1/2 = 4/5` and
`histSpacing = maxLength / 300`. The distance passes the test `dr_rk > maxLength`, its bin
index is `300 = nBins`, and the increment is outside the histogram. -/
theorem histogramStep_at_cutoff :
    sqDistRaster openGrid (cutoffSites 0) (cutoffSites 1) = 4 / 5 * (4 / 5)
      ∧ beyondCutoff (4 / 5 * (4 / 5)) (16 / 10 * openGrid.gridSpacing_x) = false
      ∧ histogramBin (4 / 5 * (4 / 5)) (16 / 10 * openGrid.gridSpacing_x / nBins) = 300
      ∧ histogramStep openGrid cutoffSites (16 / 10 * openGrid.gridSpacing_x)
          (16 / 10 * openGrid.gridSpacing_x / nBins) (cutoffSites 0)
          (List.replicate nBins 0) 1 = none := by
  have hd : sqDistRaster openGrid (cutoffSites 0) (cutoffSites 1) = 4 / 5 * (4 / 5) := by
    norm_num [sqDistRaster, minImage, cutoffSites, openGrid]
  have hcut : beyondCutoff (4 / 5 * (4 / 5)) (16 / 10 * openGrid.gridSpacing_x) = false := by
    norm_num [beyondCutoff, openGrid]
  have hbin : histogramBin (4 / 5 * (4 / 5)) (16 / 10 * openGrid.gridSpacing_x / nBins)
      = (300 : Nat) := by
    refine histogramBin_eq _ _ 90000 300 ?_ (by decide)
    rw [Int.floor_eq_iff]
    norm_num [openGrid, nBins]
  refine ⟨hd, hcut, hbin, ?_⟩
  unfold histogramStep
  simp only [hd, hcut, hbin, Bool.false_eq_true, if_false]
  exact incrementBin_of_ge _ 300 (by rw [List.length_replicate]; norm_num [nBins])

/-! ### C12: the 10 x 10 lattice on the periodic unit square -/

theorem truncSqrtTimes_lattice : truncSqrtTimes ((100 : Nat) / (1 * 1)) 1 = 10 := by
  have hf : ⌊(((100 : Nat) : ℚ) / (1 * 1)) * 1 * 1⌋ = ((100 : Nat) : Int) := by
    norm_num
  unfold truncSqrtTimes
  rw [hf, Int.toNat_natCast, ← Nat.eq_sqrt.2 (show 10 * 10 ≤ 100 ∧ 100 < (10 + 1) * (10 + 1) by decide)]
  rfl

/-- C12 (evaluation at the failing input): the 10 x 10 lattice of spacing 1/10 on the unit
square, periodic in both axes. `setDomainSize(4.01)` gives an analysis grid of 2 x 2 cells
of size 1/2, and on that grid the neighbour list of every cell names each of the other
cells several times (cell 0: cell 1 twice, cell 2 twice, cell 3 four times), so the pair
count of the histogram weighs a pair of sites by the cells the two sites lie in. -/
theorem lattice_analysis_grid :
    setDomainSize 100 periodicUnit.DX periodicUnit.DY (401 / 100)
        = { nx := 2, ny := 2, gridSpacing_x := some (1 / 2), gridSpacing_y := some (1 / 2) }
      ∧ createDomainGrid latticeGrid
        = [[3, 2, 3, 1, 1, 3, 2, 3], [2, 3, 2, 0, 0, 2, 3, 2], [1, 0, 1, 3, 3, 1, 0, 1],
           [0, 1, 0, 2, 2, 0, 1, 0]] := by
  have hD : periodicUnit.DX = 1 ∧ periodicUnit.DY = 1 := by
    constructor <;> norm_num [MeshGenerator.DX, MeshGenerator.DY, periodicUnit]
  have hx : floorQuot 1 (divInt (401 / 100 * 1) 10) = 2 := by
    rw [divInt_of_ne _ (by decide)]
    show ⌊(1 : ℚ) / (401 / 100 * 1 / ((10 : Int) : ℚ))⌋ = 2
    rw [Int.floor_eq_iff]
    norm_num
  refine ⟨?_, by decide⟩
  rw [hD.1, hD.2, setDomainSize_eq 100 1 1 (401 / 100) 10 2 2 truncSqrtTimes_lattice hx hx,
    divInt_of_ne _ (by decide)]
  norm_num

/-! ## C21: a point of the domain and the rounding of the quotient -/

theorem roundHalfEven_of_lt {q : ℚ} {f : Int} (h0 : (f : ℚ) ≤ q) (h1 : q - f < 1 / 2) :
    roundHalfEven q = f := by
  have hf : ⌊q⌋ = f := by
    rw [Int.floor_eq_iff]
    exact ⟨h0, by linarith⟩
  unfold roundHalfEven
  rw [hf, if_pos h1]

theorem roundHalfEven_of_gt {q : ℚ} {f : Int} (h0 : 1 / 2 < q - f) (h1 : q < f + 1) :
    roundHalfEven q = f + 1 := by
  have hf : ⌊q⌋ = f := by
    rw [Int.floor_eq_iff]
    exact ⟨by linarith, h1⟩
  unfold roundHalfEven
  rw [hf, if_neg (not_lt.2 (le_of_lt h0)), if_pos h0]

/-- The value of `roundDouble` from the binade of `q` and the rounded significand. -/
theorem roundDouble_eq {q : ℚ} (e m : Int) (h0 : (2 : ℚ) ^ e ≤ |q|)
    (h1 : |q| < (2 : ℚ) ^ (e + 1)) (hm : roundHalfEven (q / 2 ^ (e - 52)) = m) :
    roundDouble q = (m : ℚ) * 2 ^ (e - 52) := by
  have hpos : 0 < |q| := lt_of_lt_of_le (zpow_pos (by norm_num) e) h0
  have hq : q ≠ 0 := abs_pos.1 hpos
  have hlog : Int.log 2 |q| = e := by
    apply le_antisymm
    · have := (Int.lt_zpow_iff_log_lt (R := ℚ) (b := 2) (by norm_num) hpos).1
        (by exact_mod_cast h1)
      omega
    · exact (Int.zpow_le_iff_le_log (R := ℚ) (b := 2) (by norm_num) hpos).1
        (by exact_mod_cast h0)
  unfold roundDouble
  rw [if_neg hq, hlog, hm]

theorem roundDouble_zero : roundDouble 0 = 0 := by
  unfold roundDouble
  rw [if_pos rfl]

/-- The cell size of `thirdsGrid` is the quotient `DX / nx = 1.0 / 3` as the `double`
division gives it. -/
theorem roundDouble_third :
    roundDouble (thirdsGrid.DX / thirdsGrid.nx) = thirdsGrid.gridSpacing_x := by
  have hq : thirdsGrid.DX / (thirdsGrid.nx : ℚ) = 1 / 3 := by
    norm_num [thirdsGrid, MeshGenerator.DX]
  rw [hq, roundDouble_eq (-2) 6004799503160661 (by norm_num [abs_of_pos])
    (by norm_num [abs_of_pos])
    (roundHalfEven_of_lt (f := 6004799503160661) (by norm_num) (by norm_num))]
  norm_num [thirdsGrid]

/-- The `x` of `belowUpperBoundary` is a double: rounding leaves it as it is. -/
theorem roundDouble_belowUpperBoundary :
    roundDouble (belowUpperBoundary.1 - thirdsGrid.X_0) = 9007199254740991 / 9007199254740992 := by
  have hq : belowUpperBoundary.1 - thirdsGrid.X_0 = 9007199254740991 / 9007199254740992 := by
    norm_num [belowUpperBoundary, thirdsGrid]
  rw [hq, roundDouble_eq (-1) 9007199254740991 (by norm_num [abs_of_pos])
    (by norm_num [abs_of_pos])
    (roundHalfEven_of_lt (f := 9007199254740991) (by norm_num) (by norm_num))]
  norm_num

/-- The exact quotient `(1 - 2^-53) / (1.0/3)` is below 3 by less than a quarter of the
spacing of the doubles there, so the `double` division gives `3.0`. -/
theorem roundDouble_quotient :
    roundDouble ((9007199254740991 / 9007199254740992 : ℚ) / thirdsGrid.gridSpacing_x) = 3 := by
  have hq : (9007199254740991 / 9007199254740992 : ℚ) / thirdsGrid.gridSpacing_x
      = 18014398509481982 / 6004799503160661 := by
    norm_num [thirdsGrid]
  rw [hq, roundDouble_eq 1 6755399441055744 (by norm_num [abs_of_pos])
    (by norm_num [abs_of_pos])
    (roundHalfEven_of_gt (f := 6755399441055743) (by norm_num) (by norm_num))]
  norm_num

/-- The grid of `thirdsGrid` is what `setDomainSize(2.01)` gives for 49 sites on the unit
square: 3 x 3 cells of size `DX/3`. -/
theorem setDomainSize_thirds :
    setDomainSize 49 1 1 (201 / 100)
      = { nx := 3, ny := 3, gridSpacing_x := some (1 / 3), gridSpacing_y := some (1 / 3) } := by
  have h0 : truncSqrtTimes ((49 : Nat) / (1 * 1)) 1 = 7 := by
    have hf : ⌊(((49 : Nat) : ℚ) / (1 * 1)) * 1 * 1⌋ = ((49 : Nat) : Int) := by
      norm_num
    unfold truncSqrtTimes
    rw [hf, Int.toNat_natCast,
      ← Nat.eq_sqrt.2 (show 7 * 7 ≤ 49 ∧ 49 < (7 + 1) * (7 + 1) by decide)]
    rfl
  have hx : floorQuot 1 (divInt (201 / 100 * 1) 7) = 3 := by
    rw [divInt_of_ne _ (by decide)]
    show ⌊(1 : ℚ) / (201 / 100 * 1 / ((7 : Int) : ℚ))⌋ = 3
    rw [Int.floor_eq_iff]
    norm_num
  rw [setDomainSize_eq 49 1 1 (201 / 100) 7 3 3 h0 hx hx, divInt_of_ne _ (by decide)]
  norm_num

/-- With the exact quotient the same point gets `id_x = 2`, the last column. -/
theorem gridIdX_belowUpperBoundary : gridIdX thirdsGrid belowUpperBoundary = 2 := by
  have hq : (belowUpperBoundary.1 - thirdsGrid.X_0) / thirdsGrid.gridSpacing_x
      = 18014398509481982 / 6004799503160661 := by
    norm_num [belowUpperBoundary, thirdsGrid]
  have hf : ⌊(18014398509481982 / 6004799503160661 : ℚ)⌋ = 2 := by
    rw [Int.floor_eq_iff]
    norm_num
  unfold gridIdX truncToInt
  rw [hq, if_pos (by norm_num), hf]
  decide

/-- C21 (evaluation at the failing input): the grid of 3 x 3 cells on the unit square with
the cell size `DX/nx = 1.0/3` as the `double` division gives it, and the point
`(1 - 2^-53, 0)` of the half-open domain. The `double` quotient
`(r(0) - X_0)/gridSpacing_x` is `3.0`, so `id_x = 3 = nx`, which the check `id_x > nx` lets
through: `findGridId` returns `0 + 3*3 = 9 = nx*ny`, not an index of the tables, and the
point lies left of the rectangle of column 3. -/
theorem findGridIdDouble_below_upper_boundary :
    roundDouble (thirdsGrid.DX / thirdsGrid.nx) = thirdsGrid.gridSpacing_x
      ∧ InDomain thirdsGrid belowUpperBoundary
      ∧ gridIdXDouble thirdsGrid belowUpperBoundary = 3
      ∧ gridIdYDouble thirdsGrid belowUpperBoundary = 0
      ∧ findGridIdDouble thirdsGrid belowUpperBoundary
          = (thirdsGrid.nx : Int) * (thirdsGrid.ny : Int)
      ∧ cellAt (List.replicate (thirdsGrid.nx * thirdsGrid.ny) ([] : List Nat))
          (findGridIdDouble thirdsGrid belowUpperBoundary) = none
      ∧ belowUpperBoundary.1 < thirdsGrid.X_0 + 3 * thirdsGrid.gridSpacing_x := by
  have hx : gridIdXDouble thirdsGrid belowUpperBoundary = 3 := by
    unfold gridIdXDouble
    rw [roundDouble_belowUpperBoundary, roundDouble_quotient]
    norm_num [truncToInt, boundaryCheck, thirdsGrid]
  have hy : gridIdYDouble thirdsGrid belowUpperBoundary = 0 := by
    have h0 : belowUpperBoundary.2 - thirdsGrid.Y_0 = 0 := by
      norm_num [belowUpperBoundary, thirdsGrid]
    unfold gridIdYDouble
    rw [h0, roundDouble_zero, zero_div, roundDouble_zero]
    norm_num [truncToInt, boundaryCheck]
  have hid : findGridIdDouble thirdsGrid belowUpperBoundary = 9 := by
    unfold findGridIdDouble
    rw [hx, hy]
    norm_num [thirdsGrid]
  refine ⟨roundDouble_third, ?_, hx, hy, ?_, ?_, ?_⟩
  · norm_num [InDomain, belowUpperBoundary, thirdsGrid]
  · rw [hid]
    norm_num [thirdsGrid]
  · rw [hid]
    decide
  · norm_num [belowUpperBoundary, thirdsGrid]

end mg
